import Mathlib

/-!
Verification development for the rs-lox tree-walking Lox interpreter.

The definitions below are a shallow embedding of the Rust sources:
  * `src/span.rs`, `src/token.rs`, `src/ast/{expr,stmt}.rs`, `src/data.rs`
  * `src/interpreter.rs`, `src/interpreter/environment.rs`,
    `src/interpreter/control_flow.rs`, `src/interpreter/error.rs`
  * `src/resolver.rs`, `src/parser.rs`
  * the two scanner revisions `src/scanner.rs` and `src/scanner/mod.rs`

Modelling conventions, used consistently:
  * Rust `f64` numbers are modelled as `Rat`.  The claims under study never
    depend on IEEE-754 rounding, NaN or signed zero, and `0.0 == -0.0` holds
    in `Rat` just as in `f64`.
  * `Rc<RefCell<...>>` shared mutable data (environments, instances, callable
    values) is modelled with explicit heaps inside the interpreter state;
    values hold heap indices.  `Rc::ptr_eq` becomes index equality.
  * `HashMap` is modelled as an association list where `insert` prepends and
    `get` takes the first hit, which gives the same lookup semantics as
    overwrite-on-insert.
  * Rust panics (`unwrap` on a missing key, `unreachable!`) surface as the
    `RunRes.crash` outcome; they are not part of the `CFResult` channel.
  * Recursion that is not structural in the Rust source (while loops, calls)
    is driven by an explicit fuel parameter; running out of fuel is the
    distinct outcome `RunRes.noFuel`.
-/

namespace RsLox

/-- Alias for `String`, used where a sibling constructor named `String`
would otherwise capture the type name. -/
abbrev Str := String

/-- `ast::AstId`: process-wide monotonic identifier token, modelled as `Nat`. -/
abbrev AstId := Nat

/-- `span::Span`: half-open byte range over the source. `Span::new` normalises
the bounds with `min`/`max`, which we reproduce. -/
structure Span where
  lo : Nat
  hi : Nat
deriving DecidableEq, Repr

namespace Span

/-- `Span::new`. -/
def new (lo hi : Nat) : Span := ⟨min lo hi, max lo hi⟩

/-- `Span::to`: minimum enclosing span (`to` is a Lean keyword, hence the
name `join`). -/
def join (a b : Span) : Span := new (min a.lo b.lo) (max a.hi b.hi)

end Span

/-- `data::LoxIdent`. -/
structure LoxIdent where
  name : String
  span : Span
  id : AstId
deriving DecidableEq, Repr

/-- `token::TokenKind` (revision of `src/token.rs`). -/
inductive TokenKind where
  | Identifier (name : String)
  | String (s : String)
  | Number (n : Rat)
  | Comment (s : String)
  | Whitespace (s : String)
  | LeftParen
  | RightParen
  | LeftBrace
  | RightBrace
  | Plus
  | Minus
  | Star
  | Slash
  | Dot
  | Comma
  | Semicolon
  | Bang
  | BangEqual
  | Equal
  | EqualEqual
  | Less
  | LessEqual
  | Greater
  | GreaterEqual
  | Nil
  | True
  | False
  | This
  | Super
  | Class
  | And
  | Or
  | If
  | Else
  | Return
  | Fun
  | For
  | While
  | Var
  | Print
  | Typeof
  | Show
  | Eof
  | Dummy
  | Error (message : String)
deriving DecidableEq, Repr

namespace TokenKind

/-- Discriminant of a token kind; two kinds agree on `disc` exactly when they
are built from the same constructor.  Models `mem::discriminant`. -/
def disc : TokenKind → Nat
  | .Identifier _ => 0
  | .String _ => 1
  | .Number _ => 2
  | .Comment _ => 3
  | .Whitespace _ => 4
  | .LeftParen => 5
  | .RightParen => 6
  | .LeftBrace => 7
  | .RightBrace => 8
  | .Plus => 9
  | .Minus => 10
  | .Star => 11
  | .Slash => 12
  | .Dot => 13
  | .Comma => 14
  | .Semicolon => 15
  | .Bang => 16
  | .BangEqual => 17
  | .Equal => 18
  | .EqualEqual => 19
  | .Less => 20
  | .LessEqual => 21
  | .Greater => 22
  | .GreaterEqual => 23
  | .Nil => 24
  | .True => 25
  | .False => 26
  | .This => 27
  | .Super => 28
  | .Class => 29
  | .And => 30
  | .Or => 31
  | .If => 32
  | .Else => 33
  | .Return => 34
  | .Fun => 35
  | .For => 36
  | .While => 37
  | .Var => 38
  | .Print => 39
  | .Typeof => 40
  | .Show => 41
  | .Eof => 42
  | .Dummy => 43
  | .Error _ => 44

/-- `mem::discriminant(a) == mem::discriminant(b)` (used by `Parser::is`). -/
def sameKind (a b : TokenKind) : Bool := a.disc == b.disc

/-- `TokenKind::get_pair`.  Modelled from the spec: the source of this helper
is in the missing `parser/scanner` revision; the grammar pairs `(` with `)`
and `{` with `}` (used by `Parser::paired_spanned` to close a delimited
group). -/
def get_pair : TokenKind → TokenKind
  | .LeftParen => .RightParen
  | .LeftBrace => .RightBrace
  | k => k

end TokenKind

/-- `token::Token`. -/
structure Token where
  kind : TokenKind
  span : Span
deriving DecidableEq, Repr

/-- `Token::dummy()`. -/
def Token.dummy : Token := ⟨.Dummy, Span.new 0 0⟩

/-- `data::LoxValue`.  Heap-backed variants (`Function`, `Object`) hold the
index of their allocation in the corresponding heap of the interpreter
state, so cloning shares and `Rc::ptr_eq` is index equality. -/
inductive LoxValue where
  | Function (id : Nat)
  | Object (id : Nat)
  | Boolean (b : Bool)
  | Number (n : Rat)
  | String (s : String)
  | Nil
deriving DecidableEq, Repr

/-- `LoxValue::type_name`. -/
def LoxValue.type_name : LoxValue → Str
  | .Function _ => "function"
  | .Object _ => "object"
  | .Boolean _ => "boolean"
  | .Number _ => "number"
  | .String _ => "string"
  | .Nil => "nil"

/-- `interpreter::error::RuntimeError`, as constructed by the interpreter
revision under `src/interpreter` (the `UndefinedVariable` and
`UndefinedProperty` variants carry the offending identifier). -/
inductive RuntimeError where
  | UnsupportedType (message : String) (span : Span)
  | UndefinedVariable (ident : LoxIdent)
  | UndefinedProperty (ident : LoxIdent)
  | ZeroDivision (span : Span)
deriving DecidableEq, Repr

mutual

/-- `ast::expr::Expr`: an expression kind together with its span. -/
inductive Expr : Type where
  | mk (span : Span) (kind : ExprKind)

/-- `ast::expr::ExprKind` (one constructor per `make_ast_enum!` entry). -/
inductive ExprKind : Type where
  | Lit (value : LoxValue)
  | This (name : LoxIdent)
  | Var (name : LoxIdent)
  | Group (expr : Expr)
  | Super (super_ident : LoxIdent) (method : LoxIdent)
  | Get (object : Expr) (name : LoxIdent)
  | Set (object : Expr) (name : LoxIdent) (value : Expr)
  | Call (callee : Expr) (args : List Expr)
  | Unary (operator : Token) (operand : Expr)
  | Binary (left : Expr) (operator : Token) (right : Expr)
  | Logical (left : Expr) (operator : Token) (right : Expr)
  | Assignment (name : LoxIdent) (value : Expr)

/-- `ast::stmt::Stmt`. -/
inductive Stmt : Type where
  | mk (span : Span) (kind : StmtKind)

/-- `ast::stmt::StmtKind`. -/
inductive StmtKind : Type where
  | VarDecl (name : LoxIdent) (init : Option Expr)
  | ClassDecl (name : LoxIdent) (super_name : Option LoxIdent) (methods : List FunDecl)
  | FunDecl (f : FunDecl)
  | If (cond : Expr) (then_branch : Stmt) (else_branch : Option Stmt)
  | While (cond : Expr) (body : Stmt)
  | Return (return_span : Span) (value : Option Expr)
  | Print (expr : Expr) (debug : Bool)
  | Block (stmts : List Stmt)
  | Expr (expr : Expr)
  | Dummy

/-- `ast::stmt::FunDecl`. -/
inductive FunDecl : Type where
  | mk (name : LoxIdent) (params : List LoxIdent) (body : List Stmt) (span : Span)

end

def Expr.span : Expr → Span | .mk s _ => s
def Expr.kind : Expr → ExprKind | .mk _ k => k
def Stmt.span : Stmt → Span | .mk s _ => s
def Stmt.kind : Stmt → StmtKind | .mk _ k => k

namespace FunDecl
def name : FunDecl → LoxIdent | .mk n _ _ _ => n
def params : FunDecl → List LoxIdent | .mk _ p _ _ => p
def body : FunDecl → List Stmt | .mk _ _ b _ => b
def span : FunDecl → Span | .mk _ _ _ s => s
end FunDecl

/-!  Association-list model of `HashMap`.  `assocSet` prepends, so a later
insert shadows an earlier binding for `assocGet`, matching overwrite. -/

/-- `HashMap::get` (first binding wins). -/
def assocGet {κ α : Type} [BEq κ] (m : List (κ × α)) (k : κ) : Option α :=
  (m.find? (fun p => p.1 == k)).map (·.2)

/-- `HashMap::insert` (prepend; shadows older bindings on lookup). -/
def assocSet {κ α : Type} [BEq κ] (m : List (κ × α)) (k : κ) (v : α) : List (κ × α) :=
  (k, v) :: m

/-- `environment::EnvironmentInner`: an environment frame — the scope's
`name → value` map plus the optional enclosing frame (a heap index). -/
structure Frame where
  enclosing : Option Nat
  locals : List (String × LoxValue)
deriving Repr

/-- The content of the callable heap: one entry per `Rc<dyn LoxCallable>`
allocation.  `LoxClass.methods` maps method names to callable-heap indices
of `LoxFunction` entries. -/
inductive Callable where
  | LoxFunction (decl : FunDecl) (closure : Nat) (is_class_init : Bool)
  | NativeFunction (name : String) (arity : Nat)
  | LoxClass (name : LoxIdent) (methods : List (String × Nat))

/-- `data::LoxInstance` (the `constructor` field is the callable-heap index
of the instance's `LoxClass`). -/
structure LoxInstance where
  constructor : Nat
  properties : List (String × LoxValue)

/-- `interpreter::Interpreter` together with the heaps standing for the
`Rc`-shared runtime allocations and the collected stdout lines. -/
structure Interpreter where
  locals : List (AstId × Nat)
  globals : Nat
  env : Nat
  envs : List Frame
  fns : List Callable
  insts : List LoxInstance
  output : List String

/-- Outcome of one evaluation step.  `ok`/`ret`/`err` mirror
`CFResult = Result<T, ControlFlow<LoxValue, RuntimeError>>`; `crash` is a
Rust panic (`unwrap`/`unreachable!`); `noFuel` is fuel exhaustion of the
embedding. -/
inductive RunRes (α : Type) where
  | ok (a : α)
  | ret (v : LoxValue)
  | err (e : RuntimeError)
  | crash (msg : String)
  | noFuel

/-- The interpreter monad: state threading plus the `RunRes` outcome. -/
def M (α : Type) : Type := Interpreter → RunRes α × Interpreter

instance : Monad M where
  pure a := fun s => (.ok a, s)
  bind x f := fun s =>
    match x s with
    | (.ok a, s') => f a s'
    | (.ret v, s') => (.ret v, s')
    | (.err e, s') => (.err e, s')
    | (.crash m, s') => (.crash m, s')
    | (.noFuel, s') => (.noFuel, s')

/-- Read the interpreter state. -/
def getI : M Interpreter := fun s => (.ok s, s)

/-- Replace the interpreter state. -/
def setI (s' : Interpreter) : M Unit := fun _ => (.ok (), s')

/-- Raise a runtime error (the `Err(ControlFlow::Err(..))` channel). -/
def throwRt {α : Type} (e : RuntimeError) : M α := fun s => (.err e, s)

/-- Raise the return control-flow signal (`Err(ControlFlow::Return(..))`). -/
def throwRet {α : Type} (v : LoxValue) : M α := fun s => (.ret v, s)

/-- A Rust panic. -/
def crashM {α : Type} (msg : String) : M α := fun s => (.crash msg, s)

/-- Fuel exhaustion of the embedding. -/
def noFuelM {α : Type} : M α := fun s => (.noFuel, s)

namespace Interpreter

/-- Fetch an environment frame from the heap. -/
def getFrame (s : Interpreter) (e : Nat) : Option Frame := s.envs.get? e

/-- Overwrite an environment frame in the heap. -/
def setFrame (s : Interpreter) (e : Nat) (f : Frame) : Interpreter :=
  { s with envs := s.envs.set e f }

/-- `Environment::new_enclosed`: allocate a fresh frame whose `enclosing`
link is the given frame.  Returns the new frame's heap index. -/
def newEnclosed (s : Interpreter) (enclosing : Nat) : Nat × Interpreter :=
  (s.envs.length, { s with envs := s.envs ++ [⟨some enclosing, []⟩] })

/-- `Environment::define`: insert into the frame's own map.  (Frame indices
produced by the interpreter are always valid; an invalid index leaves the
state unchanged.) -/
def envDefine (s : Interpreter) (e : Nat) (name : String) (v : LoxValue) : Interpreter :=
  match s.getFrame e with
  | some f => s.setFrame e { f with locals := assocSet f.locals name v }
  | none => s

/-- `Environment::ancestor`: follow `enclosing` links `distance` times.
`none` corresponds to the `unwrap` panic on a missing enclosing frame. -/
def ancestor (s : Interpreter) (e : Nat) : Nat → Option Nat
  | 0 => some e
  | d + 1 =>
    match s.getFrame e with
    | some f =>
      match f.enclosing with
      | some e' => s.ancestor e' d
      | none => none
    | none => none

/-- `Environment::read_at`: read in the frame `distance` steps up.  `none`
corresponds to the `unwrap` panic on a missing binding or frame. -/
def read_at (s : Interpreter) (e : Nat) (distance : Nat) (name : String) : Option LoxValue :=
  match s.ancestor e distance with
  | some a =>
    match s.getFrame a with
    | some f => assocGet f.locals name
    | none => none
  | none => none

/-- `Environment::assign_at`: overwrite in the frame `distance` steps up;
the binding must already exist there (`get_mut(..).unwrap()`), else `none`
(panic). -/
def assign_at (s : Interpreter) (e : Nat) (distance : Nat) (name : String)
    (v : LoxValue) : Option Interpreter :=
  match s.ancestor e distance with
  | some a =>
    match s.getFrame a with
    | some f =>
      match assocGet f.locals name with
      | some _ => some (s.setFrame a { f with locals := assocSet f.locals name v })
      | none => none
    | none => none
  | none => none

/-- `Environment::read`: walk the chain until the name is found; error with
`UndefinedVariable` at the chain's end.  The fuel bounds the chain length
(chains built by the interpreter are acyclic). -/
def envRead (s : Interpreter) (fuel : Nat) (e : Nat) (ident : LoxIdent) : RunRes LoxValue :=
  match fuel with
  | 0 => .crash "environment chain too long"
  | fuel + 1 =>
    match s.getFrame e with
    | some f =>
      match assocGet f.locals ident.name with
      | some v => .ok v
      | none =>
        match f.enclosing with
        | some e' => s.envRead fuel e' ident
        | none => .err (.UndefinedVariable ident)
    | none => .crash "invalid environment index"

/-- `Environment::assign`: walk the chain and overwrite the first binding of
the name; `UndefinedVariable` at the chain's end.  Returns the updated
state (the source returns the assigned value, which the caller already
holds). -/
def envAssign (s : Interpreter) (fuel : Nat) (e : Nat) (ident : LoxIdent)
    (v : LoxValue) : RunRes Interpreter :=
  match fuel with
  | 0 => .crash "environment chain too long"
  | fuel + 1 =>
    match s.getFrame e with
    | some f =>
      match assocGet f.locals ident.name with
      | some _ => .ok (s.setFrame e { f with locals := assocSet f.locals ident.name v })
      | none =>
        match f.enclosing with
        | some e' => s.envAssign fuel e' ident v
        | none => .err (.UndefinedVariable ident)
    | none => .crash "invalid environment index"

end Interpreter

/-- `interpreter::lox_is_truthy`. -/
def lox_is_truthy : LoxValue → Bool
  | .Boolean b => b
  | .Function _ => true
  | .Object _ => true
  | .Number _ => true
  | .String _ => true
  | .Nil => false

/-- `interpreter::lox_is_equal`: no coercion; `Function`/`Object` compare by
`Rc::ptr_eq` (heap index), primitives by value, mismatched variants are
unequal. -/
def lox_is_equal : LoxValue → LoxValue → Bool
  | .Function a, .Function b => a == b
  | .Object a, .Object b => a == b
  | .Boolean a, .Boolean b => a == b
  | .Number a, .Number b => a == b
  | .String a, .String b => a == b
  | .Nil, .Nil => true
  | _, _ => false

/-- Propagate a non-`ok` outcome at another result type.  (The `ok` case is
unreachable at every use site; it is mapped to a crash.) -/
def RunRes.cast {α β : Type} : RunRes α → RunRes β
  | .ok _ => .crash "cast of an ok result"
  | .ret v => .ret v
  | .err e => .err e
  | .crash m => .crash m
  | .noFuel => .noFuel

namespace Interpreter

/-- Allocate a callable (`Rc::new` of a `dyn LoxCallable`). -/
def allocFn (s : Interpreter) (c : Callable) : Nat × Interpreter :=
  (s.fns.length, { s with fns := s.fns ++ [c] })

/-- Fetch a callable from the heap. -/
def getFn (s : Interpreter) (i : Nat) : Option Callable := s.fns.get? i

/-- Allocate an instance (`Rc::new` of a `LoxInstance`). -/
def allocInst (s : Interpreter) (inst : LoxInstance) : Nat × Interpreter :=
  (s.insts.length, { s with insts := s.insts ++ [inst] })

/-- `Interpreter::resolve_local`: record a resolved distance. -/
def resolve_local (s : Interpreter) (ident : LoxIdent) (depth : Nat) : Interpreter :=
  { s with locals := assocSet s.locals ident.id depth }

/-- `LoxFunction::bind`: a fresh environment enclosing the function's
closure, with `this` defined to the instance; the bound method is a fresh
callable allocation sharing the declaration. -/
def fnBind (s : Interpreter) (decl : FunDecl) (closure : Nat) (is_class_init : Bool)
    (inst : Nat) : Nat × Interpreter :=
  let (e, s₁) := s.newEnclosed closure
  let s₂ := s₁.envDefine e "this" (.Object inst)
  s₂.allocFn (.LoxFunction decl e is_class_init)

/-- `LoxInstance::get_bound_method`: look the name up in the class's method
table and bind it to the instance.  In every state the interpreter builds,
`constructor` indexes a `LoxClass` and method entries index `LoxFunction`s;
other shapes yield `none`. -/
def get_bound_method (s : Interpreter) (iid : Nat) (name : String) :
    Option (Nat × Interpreter) :=
  match s.insts.get? iid with
  | some inst =>
    match s.getFn inst.constructor with
    | some (.LoxClass _ methods) =>
      match assocGet methods name with
      | some mid =>
        match s.getFn mid with
        | some (.LoxFunction d c i) => some (s.fnBind d c i iid)
        | _ => none
      | none => none
    | _ => none
  | none => none

/-- `LoxInstance::get`: own properties first, then a bound method, else
`UndefinedProperty`. -/
def instance_get (iid : Nat) (ident : LoxIdent) : M LoxValue := fun s =>
  match s.insts.get? iid with
  | none => (.crash "invalid instance index", s)
  | some inst =>
    match assocGet inst.properties ident.name with
    | some v => (.ok v, s)
    | none =>
      match s.get_bound_method iid ident.name with
      | some (fid, s') => (.ok (.Function fid), s')
      | none => (.err (.UndefinedProperty ident), s)

/-- `LoxInstance::set`: always writes the instance's own property map. -/
def instance_set (s : Interpreter) (iid : Nat) (ident : LoxIdent) (v : LoxValue) :
    Interpreter :=
  match s.insts.get? iid with
  | some inst =>
    { s with insts := s.insts.set iid { inst with properties := assocSet inst.properties ident.name v } }
  | none => s

/-- `LoxCallable::arity` for a callable-heap entry (`LoxClass::arity` is the
arity of its `init` method, or `0`). -/
def callable_arity (s : Interpreter) (fid : Nat) : Nat :=
  match s.getFn fid with
  | some (.LoxFunction d _ _) => d.params.length
  | some (.NativeFunction _ a) => a
  | some (.LoxClass _ methods) =>
    match assocGet methods "init" with
    | some mid =>
      match s.getFn mid with
      | some (.LoxFunction d _ _) => d.params.length
      | _ => 0
    | none => 0
  | none => 0

/-- The class name shown by `LoxInstance`'s `Display`. -/
def class_display_name (s : Interpreter) (cid : Nat) : String :=
  match s.getFn cid with
  | some (.LoxClass n _) => n.name
  | _ => "?"

/-- `Display` for callables. -/
def fn_display (s : Interpreter) (fid : Nat) : String :=
  match s.getFn fid with
  | some (.LoxFunction d _ _) => "<fun " ++ d.name.name ++ ">"
  | some (.NativeFunction n _) => "<fun (native) " ++ n ++ ">"
  | some (.LoxClass n _) => "<class " ++ n.name ++ ">"
  | none => "?"

/-- Number rendering: integral values print without a fractional part.  (The
source formats other values with Rust's default `f64` formatting; under the
`Rat` model we use `Rat`'s rendering, which no claim depends on.) -/
def number_display (n : Rat) : String :=
  if n.den == 1 then toString n.num else toString n

/-- `Display`/`Debug` rendering of a value (`debug` quotes strings; object
properties are rendered in `Debug` mode).  Fueled because instance
properties may reference instances. -/
def render (s : Interpreter) : Nat → LoxValue → Bool → String
  | 0, _, _ => "..."
  | fuel + 1, v, dbg =>
    match v, dbg with
    | .String str, true => "\"" ++ str ++ "\""
    | .String str, false => str
    | .Number n, _ => number_display n
    | .Boolean b, _ => if b then "true" else "false"
    | .Nil, _ => "nil"
    | .Function fid, _ => s.fn_display fid
    | .Object iid, _ =>
      match s.insts.get? iid with
      | none => "<object ?>"
      | some inst =>
        let props := inst.properties.map
          (fun p => "  " ++ p.1 ++ ": " ++ s.render fuel p.2 true ++ "\n")
        "<object " ++ s.class_display_name inst.constructor ++ " \x7b"
          ++ (if inst.properties.isEmpty then "" else "\n" ++ String.join props) ++ "\x7d>"

end Interpreter

/-- `Interpreter::ensure_object`. -/
def ensure_object (v : LoxValue) (error_span : Span) : M Nat := fun s =>
  match v with
  | .Object i => (.ok i, s)
  | _ =>
    (.err (.UnsupportedType "Only objects (instances of some class) have properties" error_span), s)

/-- Message of the unary `-` type error. -/
def msg_unary_minus (tn : String) : String :=
  "Bad type for unary `-` operator: `" ++ tn ++ "`"

/-- Message of the binary `+` type error. -/
def msg_plus (ta tb : String) : String :=
  "Binary `+` operator can only operate over two numbers or two strings. Got types `"
    ++ ta ++ "` and `" ++ tb ++ "`"

/-- Message of the `bin_number_operator!` type error. -/
def msg_bin_num (op ta tb : String) : String :=
  "Binary `" ++ op ++ "` operator can only operate over two numbers. Got types `"
    ++ ta ++ "` and `" ++ tb ++ "`"

/-- Message of the `bin_comparison_operator!` type error. -/
def msg_bin_cmp (op ta tb : String) : String :=
  "Binary `" ++ op ++ "` operator can only compare two numbers or two strings. Got types `"
    ++ ta ++ "` and `" ++ tb ++ "`"

/-- Message of the arity-mismatch error. -/
def msg_arity (expected got : Nat) : String :=
  "Expected " ++ toString expected ++ " arguments, but got " ++ toString got

/-- Message of the not-callable error. -/
def msg_not_callable (tn : String) : String :=
  "Type `" ++ tn ++ "` is not callable, can only call functions and classes"

/-- `bin_number_operator!`: both operands must be numbers. -/
def bin_number_operator (l r : LoxValue) (f : Rat → Rat → Rat) (opstr : String)
    (opspan : Span) : M LoxValue := fun s =>
  match l, r with
  | .Number a, .Number b => (.ok (.Number (f a b)), s)
  | a, b => (.err (.UnsupportedType (msg_bin_num opstr a.type_name b.type_name) opspan), s)

/-- `bin_comparison_operator!`: two numbers or two strings. -/
def bin_comparison_operator (l r : LoxValue) (fn : Rat → Rat → Bool)
    (fs : String → String → Bool) (opstr : String) (opspan : Span) : M LoxValue := fun s =>
  match l, r with
  | .Number a, .Number b => (.ok (.Boolean (fn a b)), s)
  | .String a, .String b => (.ok (.Boolean (fs a b)), s)
  | a, b => (.err (.UnsupportedType (msg_bin_cmp opstr a.type_name b.type_name) opspan), s)

/-- `NativeFunction::call` dispatch.  The only native is `clock`, whose real
implementation reads the host clock (not representable in the model); the
returned number is irrelevant to every claim. -/
def native_call (name : String) (_args : List LoxValue) : M LoxValue := fun s =>
  match name with
  | "clock" => (.ok (.Number 0), s)
  | _ => (.crash "unknown native function", s)

/-- Second half of `LoxFunction::call`: if `is_class_init`, ignore the
body's value and return the `this` bound in the closure (distance `0`);
otherwise return the body's value. -/
def lox_function_finish (closure : Nat) (is_class_init : Bool) (real : LoxValue) :
    M LoxValue := fun s =>
  if is_class_init then
    match s.read_at closure 0 "this" with
    | some t => (.ok t, s)
    | none => (.crash "read_at: no `this` in initializer closure", s)
  else (.ok real, s)

/-- Parameter binding of `LoxFunction::call`: `params.iter().zip(args)`. -/
def define_params (s : Interpreter) (e : Nat) : List (LoxIdent × LoxValue) → Interpreter
  | [] => s
  | (p, v) :: rest => define_params (s.envDefine e p.name v) e rest

/-- `Interpreter::eval_class_stmt`'s method-table construction: one callable
allocation per method declaration, `is_class_init` iff named `init`, all
closing over the given environment. -/
def alloc_methods (s : Interpreter) (env : Nat) :
    List FunDecl → List (String × Nat) → List (String × Nat) × Interpreter
  | [], acc => (acc, s)
  | decl :: rest, acc =>
    let (fid, s') := s.allocFn (.LoxFunction decl env (decl.name.name == "init"))
    alloc_methods s' env rest (assocSet acc decl.name.name fid)

/-- `Interpreter::eval_class_stmt` (this interpreter revision ignores the
superclass name). -/
def eval_class_stmt (name : LoxIdent) (methods : List FunDecl) : M Unit := fun s =>
  let (mlist, s₁) := alloc_methods s s.env methods []
  let (cid, s₂) := s₁.allocFn (.LoxClass name mlist)
  (.ok (), s₂.envDefine s₂.env name.name (.Function cid))

/-- `Interpreter::eval_fun_stmt`: capture the current environment. -/
def eval_fun_stmt (f : FunDecl) : M Unit := fun s =>
  let (fid, s₁) := s.allocFn (.LoxFunction f s.env false)
  (.ok (), s₁.envDefine s₁.env f.name.name (.Function fid))

/-- `Interpreter::lookup_variable`: resolved distance if recorded, else the
globals chain. -/
def lookup_variable (ident : LoxIdent) : M LoxValue := fun s =>
  match assocGet s.locals ident.id with
  | some d =>
    match s.read_at s.env d ident.name with
    | some v => (.ok v, s)
    | none => (.crash "read_at: unresolved binding", s)
  | none =>
    match s.envRead (s.envs.length + 1) s.globals ident with
    | .ok v => (.ok v, s)
    | r => (r.cast, s)

mutual

/-- `Interpreter::eval_stmts`. -/
def eval_stmts : Nat → List Stmt → M Unit
  | 0, _ => fun s => (.noFuel, s)
  | _ + 1, [] => fun s => (.ok (), s)
  | fuel + 1, stmt :: rest => fun s =>
    match eval_stmt fuel stmt s with
    | (.ok _, s₁) => eval_stmts fuel rest s₁
    | (r, s₁) => (r, s₁)

termination_by fuel _ => fuel
decreasing_by all_goals omega
/-- `Interpreter::eval_stmt` dispatch. -/
def eval_stmt : Nat → Stmt → M Unit
  | 0, _ => fun s => (.noFuel, s)
  | fuel + 1, stmt => fun s =>
    match stmt.kind with
    | .VarDecl name init => eval_var_stmt fuel name init s
    | .ClassDecl name _ methods => eval_class_stmt name methods s
    | .FunDecl f => eval_fun_stmt f s
    | .If cond t e => eval_if_stmt fuel cond t e s
    | .While cond body => eval_while_stmt fuel cond body s
    | .Return _ value => eval_return_stmt fuel value s
    | .Print e dbg => eval_print_stmt fuel e dbg s
    | .Block stmts =>
      let (e, s') := s.newEnclosed s.env
      eval_block fuel stmts e s'
    | .Expr e =>
      match eval_expr fuel e s with
      | (.ok _, s₁) => (.ok (), s₁)
      | (r, s₁) => (r.cast, s₁)
    | .Dummy => (.crash "unreachable: Dummy statement", s)

termination_by fuel _ => fuel
decreasing_by all_goals omega
/-- `Interpreter::eval_var_stmt`. -/
def eval_var_stmt : Nat → LoxIdent → Option Expr → M Unit
  | 0, _, _ => fun s => (.noFuel, s)
  | fuel + 1, name, init => fun s =>
    match
      match init with
      | some e => eval_expr fuel e s
      | none => (.ok .Nil, s)
    with
    | (.ok v, s₁) => (.ok (), s₁.envDefine s₁.env name.name v)
    | (r, s₁) => (r.cast, s₁)

termination_by fuel _ _ => fuel
decreasing_by all_goals omega
/-- `Interpreter::eval_if_stmt`. -/
def eval_if_stmt : Nat → Expr → Stmt → Option Stmt → M Unit
  | 0, _, _, _ => fun s => (.noFuel, s)
  | fuel + 1, cond, then_branch, else_branch => fun s =>
    match eval_expr fuel cond s with
    | (.ok v, s₁) =>
      if lox_is_truthy v then eval_stmt fuel then_branch s₁
      else
        match else_branch with
        | some e => eval_stmt fuel e s₁
        | none => (.ok (), s₁)
    | (r, s₁) => (r.cast, s₁)

termination_by fuel _ _ _ => fuel
decreasing_by all_goals omega
/-- `Interpreter::eval_while_stmt`. -/
def eval_while_stmt : Nat → Expr → Stmt → M Unit
  | 0, _, _ => fun s => (.noFuel, s)
  | fuel + 1, cond, body => fun s =>
    match eval_expr fuel cond s with
    | (.ok v, s₁) =>
      if lox_is_truthy v then
        match eval_stmt fuel body s₁ with
        | (.ok _, s₂) => eval_while_stmt fuel cond body s₂
        | (r, s₂) => (r, s₂)
      else (.ok (), s₁)
    | (r, s₁) => (r.cast, s₁)

termination_by fuel _ _ => fuel
decreasing_by all_goals omega
/-- `Interpreter::eval_return_stmt`: raise the return signal. -/
def eval_return_stmt : Nat → Option Expr → M Unit
  | 0, _ => fun s => (.noFuel, s)
  | fuel + 1, value => fun s =>
    match
      match value with
      | some e => eval_expr fuel e s
      | none => (.ok .Nil, s)
    with
    | (.ok v, s₁) => (.ret v, s₁)
    | (r, s₁) => (r.cast, s₁)

termination_by fuel _ => fuel
decreasing_by all_goals omega
/-- `Interpreter::eval_print_stmt`: render to the collected stdout. -/
def eval_print_stmt : Nat → Expr → Bool → M Unit
  | 0, _, _ => fun s => (.noFuel, s)
  | fuel + 1, e, dbg => fun s =>
    match eval_expr fuel e s with
    | (.ok v, s₁) =>
      (.ok (), { s₁ with output := s₁.output ++ [s₁.render (s₁.insts.length + 1) v dbg] })
    | (r, s₁) => (r.cast, s₁)

termination_by fuel _ _ => fuel
decreasing_by all_goals omega
/-- `Interpreter::eval_block`: swap in the new environment, evaluate, and
restore the old environment whatever the outcome (`mem::replace` followed by
an unconditional write-back). -/
def eval_block : Nat → List Stmt → Nat → M Unit
  | 0, _, _ => fun s => (.noFuel, s)
  | fuel + 1, stmts, new_env => fun s =>
    let res := eval_stmts fuel stmts { s with env := new_env }
    (res.1, { res.2 with env := s.env })

termination_by fuel _ _ => fuel
decreasing_by all_goals omega
/-- `Interpreter::eval_expr` dispatch. -/
def eval_expr : Nat → Expr → M LoxValue
  | 0, _ => fun s => (.noFuel, s)
  | fuel + 1, expr => fun s =>
    match expr.kind with
    | .Lit value => (.ok value, s)
    | .This name => lookup_variable name s
    | .Var name => lookup_variable name s
    | .Group inner => eval_expr fuel inner s
    | .Super _ _ => (.crash "Super expression not implemented by this revision", s)
    | .Get object name => eval_get_expr fuel object name s
    | .Set object name value => eval_set_expr fuel object name value s
    | .Call callee args => eval_call_expr fuel callee args expr.span s
    | .Unary op operand => eval_unary_expr fuel op operand s
    | .Binary left op right => eval_binary_expr fuel left op right s
    | .Logical left op right => eval_logical_expr fuel left op right s
    | .Assignment name value => eval_assignment_expr fuel name value s

termination_by fuel _ => fuel
decreasing_by all_goals omega
/-- `Interpreter::eval_get_expr`. -/
def eval_get_expr : Nat → Expr → LoxIdent → M LoxValue
  | 0, _, _ => fun s => (.noFuel, s)
  | fuel + 1, object, name => fun s =>
    match eval_expr fuel object s with
    | (.ok v, s₁) =>
      match ensure_object v name.span s₁ with
      | (.ok i, s₂) => Interpreter.instance_get i name s₂
      | (r, s₂) => (r.cast, s₂)
    | (r, s₁) => (r, s₁)

termination_by fuel _ _ => fuel
decreasing_by all_goals omega
/-- `Interpreter::eval_set_expr`: object first, instance check, then the
value, then the write; yields the assigned value. -/
def eval_set_expr : Nat → Expr → LoxIdent → Expr → M LoxValue
  | 0, _, _, _ => fun s => (.noFuel, s)
  | fuel + 1, object, name, value => fun s =>
    match eval_expr fuel object s with
    | (.ok v, s₁) =>
      match ensure_object v name.span s₁ with
      | (.ok i, s₂) =>
        match eval_expr fuel value s₂ with
        | (.ok w, s₃) => (.ok w, s₃.instance_set i name w)
        | (r, s₃) => (r, s₃)
      | (r, s₂) => (r.cast, s₂)
    | (r, s₁) => (r, s₁)

termination_by fuel _ _ _ => fuel
decreasing_by all_goals omega
/-- Argument evaluation of `Interpreter::eval_call_expr` (left to right). -/
def eval_args : Nat → List Expr → M (List LoxValue)
  | 0, _ => fun s => (.noFuel, s)
  | _ + 1, [] => fun s => (.ok [], s)
  | fuel + 1, a :: rest => fun s =>
    match eval_expr fuel a s with
    | (.ok v, s₁) =>
      match eval_args fuel rest s₁ with
      | (.ok vs, s₂) => (.ok (v :: vs), s₂)
      | (r, s₂) => (r, s₂)
    | (r, s₁) => (r.cast, s₁)

termination_by fuel _ => fuel
decreasing_by all_goals omega
/-- `Interpreter::eval_call_expr`. -/
def eval_call_expr : Nat → Expr → List Expr → Span → M LoxValue
  | 0, _, _, _ => fun s => (.noFuel, s)
  | fuel + 1, callee, args, span => fun s =>
    match eval_expr fuel callee s with
    | (.ok cv, s₁) =>
      match eval_args fuel args s₁ with
      | (.ok vs, s₂) =>
        match cv with
        | .Function fid =>
          if s₂.callable_arity fid == vs.length then call_callable fuel fid vs s₂
          else
            (.err (.UnsupportedType (msg_arity (s₂.callable_arity fid) vs.length) span), s₂)
        | _ => (.err (.UnsupportedType (msg_not_callable cv.type_name) span), s₂)
      | (r, s₂) => (r.cast, s₂)
    | (r, s₁) => (r, s₁)

termination_by fuel _ _ _ => fuel
decreasing_by all_goals omega
/-- `LoxCallable::call` dispatch over the callable heap. -/
def call_callable : Nat → Nat → List LoxValue → M LoxValue
  | 0, _, _ => fun s => (.noFuel, s)
  | fuel + 1, fid, args => fun s =>
    match s.getFn fid with
    | some (.LoxFunction decl closure is_class_init) =>
      lox_function_call fuel decl closure is_class_init args s
    | some (.NativeFunction name _) => native_call name args s
    | some (.LoxClass _ methods) => lox_class_call fuel fid methods args s
    | none => (.crash "invalid callable index", s)

termination_by fuel _ _ => fuel
decreasing_by all_goals omega
/-- `LoxFunction::call`: fresh environment enclosing the closure, bind the
parameters, evaluate the body; a caught return signal is the body's value,
normal completion yields `Nil`; `lox_function_finish` then applies the
`is_class_init` rule.  Runtime errors propagate unchanged. -/
def lox_function_call : Nat → FunDecl → Nat → Bool → List LoxValue → M LoxValue
  | 0, _, _, _, _ => fun s => (.noFuel, s)
  | fuel + 1, decl, closure, is_class_init, args => fun s =>
    let (e, s₁) := s.newEnclosed closure
    let s₂ := define_params s₁ e (decl.params.zip args)
    match eval_block fuel decl.body e s₂ with
    | (.ok _, s₃) => lox_function_finish closure is_class_init .Nil s₃
    | (.ret v, s₃) => lox_function_finish closure is_class_init v s₃
    | (.err er, s₃) => (.err er, s₃)
    | (.crash m, s₃) => (.crash m, s₃)
    | (.noFuel, s₃) => (.noFuel, s₃)

termination_by fuel _ _ _ _ => fuel
decreasing_by all_goals omega
/-- `LoxClass::call`: construct the instance, then run a bound `init` if the
class has one (the `?` operator propagates its failure). -/
def lox_class_call : Nat → Nat → List (String × Nat) → List LoxValue → M LoxValue
  | 0, _, _, _ => fun s => (.noFuel, s)
  | fuel + 1, selfId, _methods, args => fun s =>
    let (iid, s₁) := s.allocInst ⟨selfId, []⟩
    match s₁.get_bound_method iid "init" with
    | some (bfid, s₂) =>
      match s₂.getFn bfid with
      | some (.LoxFunction d c ici) =>
        match lox_function_call fuel d c ici args s₂ with
        | (.ok _, s₃) => (.ok (.Object iid), s₃)
        | (r, s₃) => (r, s₃)
      | _ => (.crash "bound `init` is not a function", s₂)
    | none => (.ok (.Object iid), s₁)

termination_by fuel _ _ _ => fuel
decreasing_by all_goals omega
/-- `Interpreter::eval_unary_expr`. -/
def eval_unary_expr : Nat → Token → Expr → M LoxValue
  | 0, _, _ => fun s => (.noFuel, s)
  | fuel + 1, op, operand => fun s =>
    match eval_expr fuel operand s with
    | (.ok v, s₁) =>
      match op.kind with
      | .Minus =>
        match v with
        | .Number n => (.ok (.Number (-n)), s₁)
        | u => (.err (.UnsupportedType (msg_unary_minus u.type_name) op.span), s₁)
      | .Bang => (.ok (.Boolean (!lox_is_truthy v)), s₁)
      | .Show => (.ok (.String (s₁.render (s₁.insts.length + 1) v false)), s₁)
      | .Typeof => (.ok (.String v.type_name), s₁)
      | _ => (.crash "unreachable: invalid unary operator", s₁)
    | (r, s₁) => (r, s₁)

termination_by fuel _ _ => fuel
decreasing_by all_goals omega
/-- `Interpreter::eval_binary_expr`.  For `/`, a `Number 0` right operand is
rejected with `ZeroDivision` before the both-numbers rule is consulted. -/
def eval_binary_expr : Nat → Expr → Token → Expr → M LoxValue
  | 0, _, _, _ => fun s => (.noFuel, s)
  | fuel + 1, left, op, right => fun s =>
    match eval_expr fuel left s with
    | (.ok l, s₁) =>
      match eval_expr fuel right s₁ with
      | (.ok r, s₂) =>
        match op.kind with
        | .Plus =>
          match l, r with
          | .Number a, .Number b => (.ok (.Number (a + b)), s₂)
          | .String a, .String b => (.ok (.String (a ++ b)), s₂)
          | a, b => (.err (.UnsupportedType (msg_plus a.type_name b.type_name) op.span), s₂)
        | .Minus => bin_number_operator l r (fun a b => a - b) "-" op.span s₂
        | .Star => bin_number_operator l r (fun a b => a * b) "*" op.span s₂
        | .Slash =>
          match r with
          | .Number rn =>
            if rn == 0 then (.err (.ZeroDivision op.span), s₂)
            else bin_number_operator l r (fun a b => a / b) "/" op.span s₂
          | _ => bin_number_operator l r (fun a b => a / b) "/" op.span s₂
        | .EqualEqual => (.ok (.Boolean (lox_is_equal l r)), s₂)
        | .BangEqual => (.ok (.Boolean (!lox_is_equal l r)), s₂)
        | .Greater =>
          bin_comparison_operator l r (fun a b => decide (a > b)) (fun a b => decide (a > b))
            ">" op.span s₂
        | .GreaterEqual =>
          bin_comparison_operator l r (fun a b => decide (a ≥ b)) (fun a b => decide (a ≥ b))
            ">=" op.span s₂
        | .Less =>
          bin_comparison_operator l r (fun a b => decide (a < b)) (fun a b => decide (a < b))
            "<" op.span s₂
        | .LessEqual =>
          bin_comparison_operator l r (fun a b => decide (a ≤ b)) (fun a b => decide (a ≤ b))
            "<=" op.span s₂
        | _ => (.crash "unreachable: invalid binary operator", s₂)
      | (r, s₂) => (r, s₂)
    | (r, s₁) => (r, s₁)

termination_by fuel _ _ _ => fuel
decreasing_by all_goals omega
/-- `Interpreter::eval_logical_expr`: short-circuit, returning the deciding
value. -/
def eval_logical_expr : Nat → Expr → Token → Expr → M LoxValue
  | 0, _, _, _ => fun s => (.noFuel, s)
  | fuel + 1, left, op, right => fun s =>
    match eval_expr fuel left s with
    | (.ok l, s₁) =>
      match op.kind with
      | .And => if !lox_is_truthy l then (.ok l, s₁) else eval_expr fuel right s₁
      | .Or => if lox_is_truthy l then (.ok l, s₁) else eval_expr fuel right s₁
      | _ => eval_expr fuel right s₁
    | (r, s₁) => (r, s₁)

termination_by fuel _ _ _ => fuel
decreasing_by all_goals omega
/-- `Interpreter::eval_assignment_expr`: evaluate the value, then store at
the recorded distance, else assign in globals; yields the assigned value. -/
def eval_assignment_expr : Nat → LoxIdent → Expr → M LoxValue
  | 0, _, _ => fun s => (.noFuel, s)
  | fuel + 1, name, value => fun s =>
    match eval_expr fuel value s with
    | (.ok v, s₁) =>
      match assocGet s₁.locals name.id with
      | some d =>
        match s₁.assign_at s₁.env d name.name v with
        | some s₂ => (.ok v, s₂)
        | none => (.crash "assign_at: unresolved binding", s₁)
      | none =>
        match s₁.envAssign (s₁.envs.length + 1) s₁.globals name v with
        | .ok s₂ => (.ok v, s₂)
        | r => (r.cast, s₁)
    | (r, s₁) => (r, s₁)

termination_by fuel _ _ => fuel
decreasing_by all_goals omega
end

/-- `Interpreter::new()`: globals hold the `clock` native. -/
def Interpreter.new : Interpreter :=
  { locals := []
    globals := 0
    env := 0
    envs := [⟨none, [("clock", .Function 0)]⟩]
    fns := [.NativeFunction "clock" 0]
    insts := []
    output := [] }

/-- `Interpreter::interpret`: a runtime error is reported, an escaping
return signal is the `unreachable!`. -/
def Interpreter.interpret (fuel : Nat) (stmts : List Stmt) :
    Interpreter → RunRes Unit × Interpreter := fun s =>
  match eval_stmts fuel stmts s with
  | (.ret _, s') => (.crash "unreachable: return escaped the top level", s')
  | other => other

/-! ## Resolver (`src/resolver.rs`) -/

/-- `resolver::ResolveError`. -/
structure ResolveError where
  message : String
  span : Span
deriving DecidableEq, Repr

/-- `resolver::BindingState`. -/
inductive BindingState where
  | Declared
  | Initialized
deriving DecidableEq, Repr

/-- `resolver::FunctionState`. -/
inductive FunctionState where
  | None
  | Init
  | Method
  | Function
deriving DecidableEq, Repr

/-- `resolver::ClassState`. -/
inductive ClassState where
  | None
  | Class
deriving DecidableEq, Repr

/-- `resolver::ResolverState` (the source field `class` is a Lean keyword,
modelled as `cls`). -/
structure ResolverState where
  function : FunctionState
  cls : ClassState
deriving DecidableEq, Repr

/-- `resolver::Resolver`.  `locals` is the interpreter's distance table,
written through `Interpreter::resolve_local`.  The innermost scope is the
head of `scopes` (the source keeps it at the `Vec`'s end); the newest error
is the head of `errors`. -/
structure Resolver where
  locals : List (AstId × Nat)
  state : ResolverState
  scopes : List (List (String × BindingState))
  errors : List ResolveError
deriving Repr

namespace Resolver

/-- `Resolver::new` (the borrowed interpreter's table starts empty). -/
def new : Resolver := { locals := [], state := ⟨.None, .None⟩, scopes := [], errors := [] }

/-- `Resolver::error`: push a diagnostic. -/
def error (r : Resolver) (span : Span) (message : String) : Resolver :=
  { r with errors := ⟨message, span⟩ :: r.errors }

/-- `Resolver::declare`: in the innermost local scope (if any), a vacant
entry is inserted as `Declared`; an occupied entry reports the same-scope
shadowing error.  With no local scope (global level) nothing happens. -/
def declare (r : Resolver) (ident : LoxIdent) : Resolver :=
  match r.scopes with
  | [] => r
  | top :: rest =>
    match assocGet top ident.name with
    | none => { r with scopes := assocSet top ident.name .Declared :: rest }
    | some _ => r.error ident.span "Can't shadow a identifier in the same scope"

/-- `Resolver::define`: mark the innermost binding `Initialized`. -/
def define (r : Resolver) (ident : LoxIdent) : Resolver :=
  match r.scopes with
  | [] => r
  | top :: rest =>
    match assocGet top ident.name with
    | some _ => { r with scopes := assocSet top ident.name .Initialized :: rest }
    | none => r.error ident.span ("Binding `" ++ ident.name ++ "` is not defined")

/-- `Resolver::initialize` (the source name is not writable in this file):
insert an `Initialized` binding into the innermost scope.  Only called with
at least one open scope (`unwrap` in the source). -/
def init_binding (r : Resolver) (name : String) : Resolver :=
  match r.scopes with
  | top :: rest => { r with scopes := assocSet top name .Initialized :: rest }
  | [] => r

/-- `Resolver::query`: does the innermost scope hold this name in exactly
the expected state? -/
def query (r : Resolver) (ident : LoxIdent) (expected : BindingState) : Bool :=
  (r.scopes.head?.bind (fun scope => assocGet scope ident.name)) == some expected

/-- Depth search of `Resolver::resolve_binding`: innermost scope first. -/
def scope_depth (name : String) : List (List (String × BindingState)) → Nat → Option Nat
  | [], _ => none
  | scope :: rest, d =>
    if (assocGet scope name).isSome then some d else scope_depth name rest (d + 1)

/-- `Resolver::resolve_binding`: publish `(ident.id, depth)` to the
interpreter's table if some scope holds the name; otherwise leave the
reference unresolved (global). -/
def resolve_binding (r : Resolver) (ident : LoxIdent) : Resolver :=
  match scope_depth ident.name r.scopes 0 with
  | some d => { r with locals := assocSet r.locals ident.id d }
  | none => r

/-- Open a scope (first half of `Resolver::scoped`). -/
def push_scope (r : Resolver) : Resolver := { r with scopes := [] :: r.scopes }

/-- Close a scope (second half of `Resolver::scoped`). -/
def pop_scope (r : Resolver) : Resolver := { r with scopes := r.scopes.tail }

/-- Parameter handling of `Resolver::resolve_function`: declare then define
each parameter in order. -/
def declare_params (r : Resolver) (params : List LoxIdent) : Resolver :=
  params.foldl (fun acc p => (acc.declare p).define p) r

end Resolver

mutual

/-- `Resolver::resolve_stmts`. -/
def resolve_stmts (r : Resolver) : List Stmt → Resolver
  | [] => r
  | stmt :: rest => resolve_stmts (resolve_stmt r stmt) rest

/-- `Resolver::resolve_stmt`.  (`Dummy` is `unreachable!` in the source; the
resolver has no panic channel, so it is modelled as a no-op.) -/
def resolve_stmt (r : Resolver) : Stmt → Resolver
  | ⟨_, .VarDecl name init⟩ =>
    let r₁ := r.declare name
    let r₂ :=
      match init with
      | some e => resolve_expr r₁ e
      | none => r₁
    r₂.define name
  | ⟨_, .ClassDecl name _ methods⟩ =>
    let old_class_state := r.state.cls
    let r₁ := { r with state := { r.state with cls := .Class } }
    let r₂ := (r₁.declare name).define name
    let r₃ := (r₂.push_scope).init_binding "this"
    let r₄ := resolve_methods r₃ methods
    let r₅ := r₄.pop_scope
    { r₅ with state := { r₅.state with cls := old_class_state } }
  | ⟨_, .FunDecl f⟩ =>
    let r₁ := (r.declare f.name).define f.name
    resolve_function r₁ f .Function
  | ⟨_, .If cond then_branch else_branch⟩ =>
    let r₁ := resolve_expr r cond
    let r₂ := resolve_stmt r₁ then_branch
    match else_branch with
    | some e => resolve_stmt r₂ e
    | none => r₂
  | ⟨_, .While cond body⟩ =>
    let r₁ := resolve_expr r cond
    resolve_stmt r₁ body
  | ⟨_, .Return return_span value⟩ =>
    let r₁ :=
      if r.state.function == .None then r.error return_span "Illegal return statement" else r
    match value with
    | some v =>
      let r₂ :=
        if r₁.state.function == .Init then
          r₁.error return_span "Can't return value from class initializer"
        else r₁
      resolve_expr r₂ v
    | none => r₁
  | ⟨_, .Print e _⟩ => resolve_expr r e
  | ⟨_, .Block stmts⟩ => (resolve_stmts r.push_scope stmts).pop_scope
  | ⟨_, .Expr e⟩ => resolve_expr r e
  | ⟨_, .Dummy⟩ => r

/-- Method loop of the `ClassDecl` arm: each method is resolved as a
function with state `Init` (named `init`) or `Method`. -/
def resolve_methods (r : Resolver) : List FunDecl → Resolver
  | [] => r
  | method :: rest =>
    let state : FunctionState := if method.name.name == "init" then .Init else .Method
    resolve_methods (resolve_function r method state) rest

/-- `Resolver::resolve_function`: swap the function state, open a scope,
declare and define the parameters, resolve the body, close the scope,
restore the state. -/
def resolve_function (r : Resolver) : FunDecl → FunctionState → Resolver
  | ⟨_, params, body, _⟩, state =>
    let old_function_state := r.state.function
    let r₁ := { r with state := { r.state with function := state } }
    let r₂ := (r₁.push_scope).declare_params params
    let r₃ := resolve_stmts r₂ body
    let r₄ := r₃.pop_scope
    { r₄ with state := { r₄.state with function := old_function_state } }

/-- `Resolver::resolve_expr`.  (This resolver revision predates the `Super`
expression and has no arm for it.) -/
def resolve_expr (r : Resolver) : Expr → Resolver
  | ⟨_, .Lit _⟩ => r
  | ⟨sp, .This t⟩ =>
    let r₁ :=
      if r.state.cls != .Class then
        r.error sp "Illegal this expression, can't use this outside of a class"
      else r
    r₁.resolve_binding t
  | ⟨_, .Var v⟩ =>
    if r.query v .Declared then
      r.error v.span "Can't read local variable in its own initializer"
    else r.resolve_binding v
  | ⟨_, .Group g⟩ => resolve_expr r g
  | ⟨_, .Super _ _⟩ => r
  | ⟨_, .Get object _⟩ => resolve_expr r object
  | ⟨_, .Set object _ value⟩ => resolve_expr (resolve_expr r object) value
  | ⟨_, .Call callee args⟩ => resolve_exprs (resolve_expr r callee) args
  | ⟨_, .Unary _ operand⟩ => resolve_expr r operand
  | ⟨_, .Binary left _ right⟩ => resolve_expr (resolve_expr r left) right
  | ⟨_, .Logical left _ right⟩ => resolve_expr (resolve_expr r left) right
  | ⟨_, .Assignment name value⟩ => (resolve_expr r value).resolve_binding name

/-- Argument loop of the `Call` arm. -/
def resolve_exprs (r : Resolver) : List Expr → Resolver
  | [] => r
  | e :: rest => resolve_exprs (resolve_expr r e) rest

end

/-- `Resolver::resolve`: resolve the program, reporting success and the
diagnostics. -/
def Resolver.resolve (r : Resolver) (stmts : List Stmt) : Bool × Resolver :=
  let r' := resolve_stmts r stmts
  (r'.errors.isEmpty, r')

/-- The innermost scope is a local scope holding `name` (used to phrase the
same-scope-shadowing statements). -/
def scopes_has (r : Resolver) (name : String) : Prop :=
  ∃ top rest, r.scopes = top :: rest ∧ (assocGet top name).isSome

/-! ## Parser (`src/parser.rs`) -/

/-- `parser::error::ParseError` (the `ScanError` payload is the message
string carried by the scanner's `Error` token, as pushed by
`Parser::advance`). -/
inductive ParseError where
  | Error (message : String) (span : Span)
  | ScanError (error : String) (span : Span)
  | UnexpectedToken (message : String) (offending : Token) (expected : Option TokenKind)
deriving DecidableEq, Repr

/-- `parser::state::ParserOptions` (module absent from the sources; the only
option read by `parser.rs` is `repl_mode`). -/
structure ParserOptions where
  repl_mode : Bool
deriving DecidableEq, Repr

/-- `parser::Parser`.  `tokens` is the remaining scanner stream (scanned
lazily in the source); `next_id` is the process-wide `AstId` counter minted
by `LoxIdent::new`; the newest diagnostic is the head of `diagnostics`. -/
structure Parser where
  tokens : List Token
  current_token : Token
  prev_token : Token
  diagnostics : List ParseError
  options : ParserOptions
  next_id : AstId
deriving Repr

/-- `S_MUST`. -/
def S_MUST : String := "Parser bug. Unexpected token"

namespace Parser

/-- The token-skipping loop of `Parser::advance`: drop `Comment` and
`Whitespace` tokens, record `Error` tokens as `ScanError` diagnostics, stop
at the first significant token. -/
def next_filtered : List Token → List ParseError →
    Option Token × List Token × List ParseError
  | [], diags => (none, [], diags)
  | t :: rest, diags =>
    match t.kind with
    | .Error e => next_filtered rest (.ScanError e t.span :: diags)
    | .Comment _ => next_filtered rest diags
    | .Whitespace _ => next_filtered rest diags
    | _ => (some t, rest, diags)

/-- `Parser::advance`: shift to the next significant token, returning the
old current token (the new `prev_token`).  Advancing past the stream's end
panics in the source and never happens on scanner output (which ends with
`Eof`, where the parser stops); it is modelled by leaving the current token
in place. -/
def advance (p : Parser) : Token × Parser :=
  match next_filtered p.tokens p.diagnostics with
  | (some next, rest, diags) =>
    (p.current_token,
      { p with tokens := rest, diagnostics := diags,
               current_token := next, prev_token := p.current_token })
  | (none, rest, diags) =>
    (p.current_token,
      { p with tokens := rest, diagnostics := diags, prev_token := p.current_token })

/-- `Parser::is`: discriminant comparison with the current token. -/
def is (p : Parser) (expected : TokenKind) : Bool :=
  p.current_token.kind.sameKind expected

/-- `Parser::take`. -/
def take (p : Parser) (expected : TokenKind) : Bool × Parser :=
  if p.is expected then (true, (p.advance).2) else (false, p)

/-- `Parser::unexpected`. -/
def unexpected (p : Parser) (message : String) (expected : Option TokenKind) : ParseError :=
  .UnexpectedToken message p.current_token expected

/-- `Parser::consume`. -/
def consume (p : Parser) (expected : TokenKind) (msg : String) :
    Except ParseError Token × Parser :=
  if p.is expected then
    let (t, p') := p.advance
    (.ok t, p')
  else (.error (p.unexpected msg (some expected)), p)

/-- `Parser::consume_ident`: consume an identifier token, minting a fresh
`AstId` (`LoxIdent::from` / `LoxIdent::new`). -/
def consume_ident (p : Parser) (msg : String) : Except ParseError LoxIdent × Parser :=
  if p.is (.Identifier "<ident>") then
    let (t, p') := p.advance
    match t.kind with
    | .Identifier name => (.ok ⟨name, t.span, p'.next_id⟩, { p' with next_id := p'.next_id + 1 })
    | _ => (.error (p'.unexpected msg (some (.Identifier "<ident>"))), p')
  else (.error (p.unexpected msg (some (.Identifier "<ident>"))), p)

/-- `Parser::paired_spanned`. -/
def paired_spanned {R : Type} (p : Parser) (delim_start : TokenKind)
    (start_msg end_msg : String) (inner : Parser → Except ParseError R × Parser) :
    Except ParseError (R × Span) × Parser :=
  match p.consume delim_start start_msg with
  | (.ok start_tok, p₁) =>
    match inner p₁ with
    | (.ok ret, p₂) =>
      match p₂.consume delim_start.get_pair end_msg with
      | (.ok end_tok, p₃) => (.ok (ret, start_tok.span.join end_tok.span), p₃)
      | (.error e, p₃) => (.error e, p₃)
    | (.error e, p₂) => (.error e, p₂)
  | (.error e, p₁) => (.error e, p₁)

/-- `Parser::paired`. -/
def paired {R : Type} (p : Parser) (delim_start : TokenKind)
    (start_msg end_msg : String) (inner : Parser → Except ParseError R × Parser) :
    Except ParseError R × Parser :=
  match paired_spanned p delim_start start_msg end_msg inner with
  | (.ok (ret, _), p') => (.ok ret, p')
  | (.error e, p') => (.error e, p')

/-- `Parser::is_at_end`. -/
def is_at_end (p : Parser) : Bool := p.current_token.kind == .Eof

/-- `Parser::synchronize` (fuelled: each step consumes a token). -/
def synchronize : Nat → Parser → Parser
  | 0, p => p
  | fuel + 1, p =>
    if p.is_at_end then p
    else
      match p.current_token.kind with
      | .Semicolon => (p.advance).2
      | .Class => p
      | .For => p
      | .Fun => p
      | .If => p
      | .Print => p
      | .Return => p
      | .Var => p
      | .While => p
      | _ => synchronize fuel (p.advance).2

end Parser

/-- `expr::Lit::from(Token)` (other kinds are `unreachable!`; `Nil` stands
in for the panic, and no caller reaches it). -/
def lit_from_token (t : Token) : LoxValue :=
  match t.kind with
  | .String s => .String s
  | .Number n => .Number n
  | .Nil => .Nil
  | .True => .Boolean true
  | .False => .Boolean false
  | _ => .Nil

/-- The `for`-statement assembly of `Parser::parse_for_stmt` (source lines
"Desugar `for` increment" / "Create the while" / "Desugar `for`
initializer"). -/
def desugar_for (for_token_span : Span) (init : Option Stmt) (cond : Expr)
    (incr : Option Expr) (body : Stmt) : Stmt :=
  let body₁ :=
    match incr with
    | some incr => Stmt.mk body.span (.Block [body, Stmt.mk incr.span (.Expr incr)])
    | none => body
  let body₂ := Stmt.mk (for_token_span.join body₁.span) (.While cond body₁)
  match init with
  | some init => Stmt.mk body₂.span (.Block [init, body₂])
  | none => body₂

/-- The parser's result-with-state shape (`PResult` threaded through
`&mut self`). -/
def PM (α : Type) : Type := Parser → Except ParseError α × Parser

instance : Monad PM where
  pure a := fun p => (.ok a, p)
  bind x f := fun p =>
    match x p with
    | (.ok a, p') => f a p'
    | (.error e, p') => (.error e, p')

/-- Error used when the fuel of the embedding runs out (never produced on
any input the theorems below touch with adequate fuel). -/
def fuel_err : ParseError := .Error "parser fuel exhausted (model artifact)" (Span.new 0 0)

/-- Fail with a parse error (`return Err(..)` / `?`). -/
def throwP {α : Type} (e : ParseError) : PM α := fun p => (.error e, p)

/-- `self.advance()` as an action. -/
def advanceP : PM Token := fun p =>
  let (t, p') := p.advance
  (.ok t, p')

/-- `self.take(k)` as an action. -/
def takeP (k : TokenKind) : PM Bool := fun p =>
  let (b, p') := p.take k
  (.ok b, p')

/-- `self.is(k)` as an action. -/
def isP (k : TokenKind) : PM Bool := fun p => (.ok (p.is k), p)

/-- `self.is_at_end()` as an action. -/
def isAtEndP : PM Bool := fun p => (.ok p.is_at_end, p)

/-- Read the current token's kind. -/
def currentKind : PM TokenKind := fun p => (.ok p.current_token.kind, p)

/-- `self.consume(k, msg)` as an action. -/
def consumeP (k : TokenKind) (msg : String) : PM Token := fun p => p.consume k msg

/-- `self.consume_ident(msg)` as an action. -/
def consumeIdentP (msg : String) : PM LoxIdent := fun p => p.consume_ident msg

/-- `self.paired(..)` as an action. -/
def pairedP {R : Type} (k : TokenKind) (m₁ m₂ : String) (inner : PM R) : PM R := fun p =>
  Parser.paired p k m₁ m₂ inner

/-- `self.paired_spanned(..)` as an action. -/
def pairedSpannedP {R : Type} (k : TokenKind) (m₁ m₂ : String) (inner : PM R) :
    PM (R × Span) := fun p =>
  Parser.paired_spanned p k m₁ m₂ inner

/-- `self.diagnostics.push(..)` as an action. -/
def pushDiag (e : ParseError) : PM Unit := fun p =>
  (.ok (), { p with diagnostics := e :: p.diagnostics })

mutual

/-- `Parser::parse_program`: declarations until `Eof`. -/
def parse_program : Nat → Parser → List Stmt × Parser
  | 0, p => ([], p)
  | fuel + 1, p =>
    if p.is_at_end then ([], p)
    else
      let (stmt, p₁) := parse_decl fuel p
      let (rest, p₂) := parse_program fuel p₁
      (stmt :: rest, p₂)

termination_by fuel _ => fuel
decreasing_by all_goals omega
/-- `Parser::parse_decl`: on failure record the diagnostic, synchronize and
produce a `Dummy` placeholder at the post-synchronization position. -/
def parse_decl : Nat → Parser → Stmt × Parser
  | 0, p => (Stmt.mk (Span.new 0 0) .Dummy, p)
  | fuel + 1, p =>
    let res :=
      match p.current_token.kind with
      | .Var => parse_var_decl fuel p
      | .Class => parse_class_decl fuel p
      | .Fun => parse_fun_decl fuel p
      | _ => parse_stmt fuel p
    match res with
    | (.ok stmt, p₁) => (stmt, p₁)
    | (.error e, p₁) =>
      let p₂ := Parser.synchronize (p₁.tokens.length + 1)
        { p₁ with diagnostics := e :: p₁.diagnostics }
      let lo := p₂.current_token.span.lo
      (Stmt.mk (Span.new lo lo) .Dummy, p₂)

termination_by fuel _ => fuel
decreasing_by all_goals omega
/-- `Parser::parse_var_decl`. -/
def parse_var_decl : Nat → PM Stmt
  | 0 => throwP fuel_err
  | fuel + 1 => do
    let var_tok ← consumeP .Var S_MUST
    let name ← consumeIdentP "Expected variable name"
    let has_init ← takeP .Equal
    let init ←
      if has_init then do
        let e ← parse_expr fuel
        pure (some e)
      else pure none
    let semi ← consumeP .Semicolon "Expected `;` after variable declaration"
    pure (Stmt.mk (var_tok.span.join semi.span) (.VarDecl name init))

/-- `Parser::parse_class_decl` (this parser revision has no superclass
clause; `super_name` is always absent). -/
def parse_class_decl : Nat → PM Stmt
  | 0 => throwP fuel_err
  | fuel + 1 => do
    let class_tok ← consumeP .Class S_MUST
    let name ← consumeIdentP "Expected class name"
    let (methods, class_body_span) ←
      pairedSpannedP .LeftBrace "Expected `\x7b` before class body" "Expected `\x7d` after class body"
        (parse_methods fuel)
    pure (Stmt.mk (class_tok.span.join class_body_span) (.ClassDecl name none methods))

termination_by fuel => fuel
decreasing_by all_goals omega
/-- Method loop of `Parser::parse_class_decl`. -/
def parse_methods : Nat → PM (List FunDecl)
  | 0 => throwP fuel_err
  | fuel + 1 => do
    let stop ← isP .RightBrace
    let at_end ← isAtEndP
    if !stop && !at_end then do
      let m ← parse_fn_params_and_body fuel "method"
      let rest ← parse_methods fuel
      pure (m :: rest)
    else pure []

termination_by fuel => fuel
decreasing_by all_goals omega
/-- `Parser::parse_fun_decl`. -/
def parse_fun_decl : Nat → PM Stmt
  | 0 => throwP fuel_err
  | fuel + 1 => do
    let fun_tok ← consumeP .Fun S_MUST
    let f ← parse_fn_params_and_body fuel "function"
    pure (Stmt.mk (fun_tok.span.join f.span) (.FunDecl f))

termination_by fuel => fuel
decreasing_by all_goals omega
/-- `Parser::parse_fn_params_and_body`. -/
def parse_fn_params_and_body : Nat → String → PM FunDecl
  | 0, _ => throwP fuel_err
  | fuel + 1, kind => do
    let name ← consumeIdentP ("Expected " ++ kind ++ " name")
    let params ←
      pairedP .LeftParen ("Expected `(` after " ++ kind ++ " name")
        ("Expected `)` after " ++ kind ++ " parameter list")
        (do
          let stop ← isP .RightParen
          if !stop then parse_params fuel else pure [])
    let (body, body_span) ← parse_block fuel
    pure (FunDecl.mk name params body (name.span.join body_span))

termination_by fuel _ => fuel
decreasing_by all_goals omega
/-- Parameter loop of `Parser::parse_fn_params_and_body`. -/
def parse_params : Nat → PM (List LoxIdent)
  | 0 => throwP fuel_err
  | fuel + 1 => do
    let param ← consumeIdentP "Expected parameter name"
    let more ← takeP .Comma
    if more then do
      let rest ← parse_params fuel
      pure (param :: rest)
    else pure [param]

termination_by fuel => fuel
decreasing_by all_goals omega
/-- `Parser::parse_stmt` dispatch. -/
def parse_stmt : Nat → Parser → Except ParseError Stmt × Parser
  | 0, p => (.error fuel_err, p)
  | fuel + 1, p =>
    match p.current_token.kind with
    | .If => parse_if_stmt fuel p
    | .For => parse_for_stmt fuel p
    | .While => parse_while_stmt fuel p
    | .Return => parse_return_stmt fuel p
    | .Print => parse_print_stmt fuel p
    | .LeftBrace =>
      (match parse_block fuel p with
       | (.ok (stmts, span), p') => (.ok (Stmt.mk span (.Block stmts)), p')
       | (.error e, p') => (.error e, p'))
    | _ => parse_expr_stmt fuel p

termination_by fuel _ => fuel
decreasing_by all_goals omega
/-- `Parser::parse_if_stmt`. -/
def parse_if_stmt : Nat → PM Stmt
  | 0 => throwP fuel_err
  | fuel + 1 => do
    let if_tok ← consumeP .If S_MUST
    let cond ←
      pairedP .LeftParen "Expected `if` condition group opening"
        "Expected `if` condition group to be closed" (parse_expr fuel)
    let then_branch ← parse_stmt fuel
    let has_else ← takeP .Else
    if has_else then do
      let else_branch ← parse_stmt fuel
      pure (Stmt.mk (if_tok.span.join else_branch.span) (.If cond then_branch (some else_branch)))
    else pure (Stmt.mk (if_tok.span.join then_branch.span) (.If cond then_branch none))

termination_by fuel => fuel
decreasing_by all_goals omega
/-- `Parser::parse_for_stmt`: parse the clauses and body, then assemble the
desugared statement (`desugar_for`).  There is no `For` statement kind. -/
def parse_for_stmt : Nat → Parser → Except ParseError Stmt × Parser
  | 0, p => (.error fuel_err, p)
  | fuel + 1, p =>
    match p.consume .For S_MUST with
    | (.ok for_tok, p₁) =>
      match
        Parser.paired p₁ .LeftParen "Expected `for` clauses group opening"
          "Expected `for` clauses group to be closed" (parse_for_clauses fuel)
      with
      | (.ok (init, cond, incr), p₂) =>
        match parse_stmt fuel p₂ with
        | (.ok body, p₃) => (.ok (desugar_for for_tok.span init cond incr body), p₃)
        | (.error e, p₃) => (.error e, p₃)
      | (.error e, p₂) => (.error e, p₂)
    | (.error e, p₁) => (.error e, p₁)

termination_by fuel _ => fuel
decreasing_by all_goals omega
/-- The clause closure of `Parser::parse_for_stmt`: initializer (`;` for
none, a `var` declaration, or an expression statement), condition
(`parse_for_cond`), the `;`, and the optional increment (absent before
`)`). -/
def parse_for_clauses : Nat → Parser →
    Except ParseError (Option Stmt × Expr × Option Expr) × Parser
  | 0, p => (.error fuel_err, p)
  | fuel + 1, p =>
    let init_res : Except ParseError (Option Stmt) × Parser :=
      match p.current_token.kind with
      | .Semicolon => (.ok none, (p.advance).2)
      | .Var =>
        (match parse_var_decl fuel p with
         | (.ok s, p') => (.ok (some s), p')
         | (.error e, p') => (.error e, p'))
      | _ =>
        (match parse_expr_stmt fuel p with
         | (.ok s, p') => (.ok (some s), p')
         | (.error e, p') => (.error e, p'))
    match init_res with
    | (.ok init, p₁) =>
      match parse_for_cond fuel p₁ with
      | (.ok cond, p₂) =>
        match p₂.consume .Semicolon "Expected `;` after `for` condition" with
        | (.ok _, p₃) =>
          (match p₃.current_token.kind with
           | .RightParen => (.ok (init, cond, none), p₃)
           | _ =>
             match parse_expr fuel p₃ with
             | (.ok e, p₄) => (.ok (init, cond, some e), p₄)
             | (.error e, p₄) => (.error e, p₄))
        | (.error e, p₃) => (.error e, p₃)
      | (.error e, p₂) => (.error e, p₂)
    | (.error e, p₁) => (.error e, p₁)

/-- The condition clause of `Parser::parse_for_stmt`: a missing condition
(current token `;`) synthesizes a `true` literal whose empty span sits at
the `;`'s low position; otherwise the condition is parsed. -/
def parse_for_cond : Nat → Parser → Except ParseError Expr × Parser
  | 0, p => (.error fuel_err, p)
  | fuel + 1, p =>
    match p.current_token.kind with
    | .Semicolon =>
      let lo := p.current_token.span.lo
      (.ok (Expr.mk (Span.new lo lo) (.Lit (.Boolean true))), p)
    | _ => parse_expr fuel p

/-- `Parser::parse_while_stmt`. -/
def parse_while_stmt : Nat → PM Stmt
  | 0 => throwP fuel_err
  | fuel + 1 => do
    let while_tok ← consumeP .While S_MUST
    let cond ←
      pairedP .LeftParen "Expected `while` condition group opening"
        "Expected `while` condition group to be closed" (parse_expr fuel)
    let body ← parse_stmt fuel
    pure (Stmt.mk (while_tok.span.join body.span) (.While cond body))

termination_by fuel => fuel
decreasing_by all_goals omega
/-- `Parser::parse_return_stmt`. -/
def parse_return_stmt : Nat → PM Stmt
  | 0 => throwP fuel_err
  | fuel + 1 => do
    let ret_tok ← consumeP .Return S_MUST
    let is_semi ← isP .Semicolon
    let value ←
      if is_semi then pure none
      else do
        let e ← parse_expr fuel
        pure (some e)
    let semi ← consumeP .Semicolon "Expected `;` after return"
    pure (Stmt.mk (ret_tok.span.join semi.span) (.Return ret_tok.span value))

/-- `Parser::parse_print_stmt`. -/
def parse_print_stmt : Nat → PM Stmt
  | 0 => throwP fuel_err
  | fuel + 1 => do
    let print_tok ← consumeP .Print S_MUST
    let e ← parse_expr fuel
    let semi ← consumeP .Semicolon "Expected `;` after value"
    pure (Stmt.mk (print_tok.span.join semi.span) (.Print e false))

/-- `Parser::parse_block`. -/
def parse_block : Nat → PM (List Stmt × Span)
  | 0 => throwP fuel_err
  | fuel + 1 =>
    pairedSpannedP .LeftBrace "Expected block to be opened" "Expected block to be closed"
      (parse_block_stmts fuel)

termination_by fuel => fuel
decreasing_by all_goals omega
/-- Declaration loop of `Parser::parse_block`. -/
def parse_block_stmts : Nat → Parser → Except ParseError (List Stmt) × Parser
  | 0, p => (.error fuel_err, p)
  | fuel + 1, p =>
    if !(p.is .RightBrace) && !p.is_at_end then
      let (s, p₁) := parse_decl fuel p
      match parse_block_stmts fuel p₁ with
      | (.ok rest, p₂) => (.ok (s :: rest), p₂)
      | (.error e, p₂) => (.error e, p₂)
    else (.ok [], p)

termination_by fuel _ => fuel
decreasing_by all_goals omega
/-- `Parser::parse_expr_stmt`: in REPL mode a trailing expression at `Eof`
is promoted to a debug `Print`. -/
def parse_expr_stmt : Nat → Parser → Except ParseError Stmt × Parser
  | 0, p => (.error fuel_err, p)
  | fuel + 1, p =>
    match parse_expr fuel p with
    | (.ok e, p₁) =>
      if p₁.options.repl_mode && p₁.is_at_end then
        (.ok (Stmt.mk e.span (.Print e true)), p₁)
      else
        match p₁.consume .Semicolon "Expected `;` after expression" with
        | (.ok semi, p₂) => (.ok (Stmt.mk (e.span.join semi.span) (.Expr e)), p₂)
        | (.error er, p₂) => (.error er, p₂)
    | (.error er, p₁) => (.error er, p₁)

/-- `Parser::parse_expr`. -/
def parse_expr : Nat → PM Expr
  | 0 => throwP fuel_err
  | fuel + 1 => parse_assignment fuel

termination_by fuel => fuel
decreasing_by all_goals omega
/-- `Parser::parse_assignment`: right-recursive; the already-parsed left
side is re-interpreted as an lvalue (`Var` to `Assignment`, `Get` to
`Set`), otherwise "Invalid assignment target". -/
def parse_assignment : Nat → PM Expr
  | 0 => throwP fuel_err
  | fuel + 1 => do
    let left ← parse_or fuel
    let has_eq ← takeP .Equal
    if has_eq then do
      let value ← parse_assignment fuel
      let span := left.span.join value.span
      match left.kind with
      | .Var name => pure (Expr.mk span (.Assignment name value))
      | .Get object name => pure (Expr.mk span (.Set object name value))
      | _ => throwP (.Error "Invalid assignment target" left.span)
    else pure left

termination_by fuel => fuel
decreasing_by all_goals omega
/-- `Parser::parse_or` (`bin_expr!` with `Logical`/`Or`). -/
def parse_or : Nat → PM Expr
  | 0 => throwP fuel_err
  | fuel + 1 => do
    let left ← parse_and fuel
    parse_or_loop fuel left

termination_by fuel => fuel
decreasing_by all_goals omega
/-- Iteration of `Parser::parse_or`. -/
def parse_or_loop : Nat → Expr → PM Expr
  | 0, _ => throwP fuel_err
  | fuel + 1, left => do
    let k ← currentKind
    match k with
    | .Or => do
      let op ← advanceP
      let right ← parse_and fuel
      parse_or_loop fuel (Expr.mk (left.span.join right.span) (.Logical left op right))
    | _ => pure left

termination_by fuel _ => fuel
decreasing_by all_goals omega
/-- `Parser::parse_and` (`bin_expr!` with `Logical`/`And`). -/
def parse_and : Nat → PM Expr
  | 0 => throwP fuel_err
  | fuel + 1 => do
    let left ← parse_equality fuel
    parse_and_loop fuel left

termination_by fuel => fuel
decreasing_by all_goals omega
/-- Iteration of `Parser::parse_and`. -/
def parse_and_loop : Nat → Expr → PM Expr
  | 0, _ => throwP fuel_err
  | fuel + 1, left => do
    let k ← currentKind
    match k with
    | .And => do
      let op ← advanceP
      let right ← parse_equality fuel
      parse_and_loop fuel (Expr.mk (left.span.join right.span) (.Logical left op right))
    | _ => pure left

termination_by fuel _ => fuel
decreasing_by all_goals omega
/-- `Parser::parse_equality`. -/
def parse_equality : Nat → PM Expr
  | 0 => throwP fuel_err
  | fuel + 1 => do
    let left ← parse_comparison fuel
    parse_equality_loop fuel left

termination_by fuel => fuel
decreasing_by all_goals omega
/-- Iteration of `Parser::parse_equality`. -/
def parse_equality_loop : Nat → Expr → PM Expr
  | 0, _ => throwP fuel_err
  | fuel + 1, left => do
    let k ← currentKind
    match k with
    | .EqualEqual | .BangEqual => do
      let op ← advanceP
      let right ← parse_comparison fuel
      parse_equality_loop fuel (Expr.mk (left.span.join right.span) (.Binary left op right))
    | _ => pure left

termination_by fuel _ => fuel
decreasing_by all_goals omega
/-- `Parser::parse_comparison`. -/
def parse_comparison : Nat → PM Expr
  | 0 => throwP fuel_err
  | fuel + 1 => do
    let left ← parse_term fuel
    parse_comparison_loop fuel left

termination_by fuel => fuel
decreasing_by all_goals omega
/-- Iteration of `Parser::parse_comparison`. -/
def parse_comparison_loop : Nat → Expr → PM Expr
  | 0, _ => throwP fuel_err
  | fuel + 1, left => do
    let k ← currentKind
    match k with
    | .Greater | .GreaterEqual | .Less | .LessEqual => do
      let op ← advanceP
      let right ← parse_term fuel
      parse_comparison_loop fuel (Expr.mk (left.span.join right.span) (.Binary left op right))
    | _ => pure left

termination_by fuel _ => fuel
decreasing_by all_goals omega
/-- `Parser::parse_term`. -/
def parse_term : Nat → PM Expr
  | 0 => throwP fuel_err
  | fuel + 1 => do
    let left ← parse_factor fuel
    parse_term_loop fuel left

termination_by fuel => fuel
decreasing_by all_goals omega
/-- Iteration of `Parser::parse_term`. -/
def parse_term_loop : Nat → Expr → PM Expr
  | 0, _ => throwP fuel_err
  | fuel + 1, left => do
    let k ← currentKind
    match k with
    | .Plus | .Minus => do
      let op ← advanceP
      let right ← parse_factor fuel
      parse_term_loop fuel (Expr.mk (left.span.join right.span) (.Binary left op right))
    | _ => pure left

termination_by fuel _ => fuel
decreasing_by all_goals omega
/-- `Parser::parse_factor`. -/
def parse_factor : Nat → PM Expr
  | 0 => throwP fuel_err
  | fuel + 1 => do
    let left ← parse_unary fuel
    parse_factor_loop fuel left

termination_by fuel => fuel
decreasing_by all_goals omega
/-- Iteration of `Parser::parse_factor`. -/
def parse_factor_loop : Nat → Expr → PM Expr
  | 0, _ => throwP fuel_err
  | fuel + 1, left => do
    let k ← currentKind
    match k with
    | .Star | .Slash => do
      let op ← advanceP
      let right ← parse_unary fuel
      parse_factor_loop fuel (Expr.mk (left.span.join right.span) (.Binary left op right))
    | _ => pure left

termination_by fuel _ => fuel
decreasing_by all_goals omega
/-- `Parser::parse_unary`. -/
def parse_unary : Nat → PM Expr
  | 0 => throwP fuel_err
  | fuel + 1 => do
    let k ← currentKind
    match k with
    | .Bang | .Minus | .Typeof | .Show => do
      let op ← advanceP
      let operand ← parse_unary fuel
      pure (Expr.mk (op.span.join operand.span) (.Unary op operand))
    | _ => parse_call_or_get fuel

termination_by fuel => fuel
decreasing_by all_goals omega
/-- `Parser::parse_call_or_get`. -/
def parse_call_or_get : Nat → PM Expr
  | 0 => throwP fuel_err
  | fuel + 1 => do
    let e ← parse_primary fuel
    call_get_loop fuel e

termination_by fuel => fuel
decreasing_by all_goals omega
/-- Suffix loop of `Parser::parse_call_or_get`: call argument lists and
property accesses. -/
def call_get_loop : Nat → Expr → PM Expr
  | 0, _ => throwP fuel_err
  | fuel + 1, e => do
    let k ← currentKind
    match k with
    | .LeftParen => do
      let e' ← finish_call_parsing fuel e
      call_get_loop fuel e'
    | .Dot => do
      let _ ← advanceP
      let name ← consumeIdentP "Expect property name after `.`"
      call_get_loop fuel (Expr.mk (e.span.join name.span) (.Get e name))
    | _ => pure e

termination_by fuel _ => fuel
decreasing_by all_goals omega
/-- `Parser::finish_call_parsing`: argument list plus the 255-argument
diagnostic (which does not abort parsing). -/
def finish_call_parsing : Nat → Expr → PM Expr
  | 0, _ => throwP fuel_err
  | fuel + 1, curr_expr => do
    let (args, call_span) ←
      pairedSpannedP .LeftParen S_MUST "Expected `)` to close call syntax"
        (do
          let stop ← isP .RightParen
          if !stop then parse_args fuel else pure [])
    if args.length ≥ 255 then
      pushDiag (.Error "Call can't have more than 255 arguments" call_span)
    else pure ()
    pure (Expr.mk (curr_expr.span.join call_span) (.Call curr_expr args))

termination_by fuel _ => fuel
decreasing_by all_goals omega
/-- Argument loop of `Parser::finish_call_parsing`. -/
def parse_args : Nat → PM (List Expr)
  | 0 => throwP fuel_err
  | fuel + 1 => do
    let first ← parse_expr fuel
    let more ← takeP .Comma
    if more then do
      let rest ← parse_args fuel
      pure (first :: rest)
    else pure [first]

termination_by fuel => fuel
decreasing_by all_goals omega
/-- `Parser::parse_primary`. -/
def parse_primary : Nat → Parser → Except ParseError Expr × Parser
  | 0, p => (.error fuel_err, p)
  | fuel + 1, p =>
    match p.current_token.kind with
    | .String _ =>
      let (t, p') := p.advance
      (.ok (Expr.mk t.span (.Lit (lit_from_token t))), p')
    | .Number _ =>
      let (t, p') := p.advance
      (.ok (Expr.mk t.span (.Lit (lit_from_token t))), p')
    | .True =>
      let (t, p') := p.advance
      (.ok (Expr.mk t.span (.Lit (lit_from_token t))), p')
    | .False =>
      let (t, p') := p.advance
      (.ok (Expr.mk t.span (.Lit (lit_from_token t))), p')
    | .Nil =>
      let (t, p') := p.advance
      (.ok (Expr.mk t.span (.Lit (lit_from_token t))), p')
    | .Identifier _ =>
      (match p.consume_ident S_MUST with
       | (.ok name, p') => (.ok (Expr.mk name.span (.Var name)), p')
       | (.error e, p') => (.error e, p'))
    | .LeftParen =>
      (match
        Parser.paired_spanned p .LeftParen S_MUST "Expected group to be closed" (parse_expr fuel)
      with
       | (.ok (e, span), p') => (.ok (Expr.mk span (.Group e)), p')
       | (.error e, p') => (.error e, p'))
    | _ => (.error (p.unexpected "Expected any expression" none), p)

termination_by fuel _ => fuel
decreasing_by all_goals omega
end

/-- `Parser::new`: prime `current_token` with the first significant token. -/
def Parser.new (tokens : List Token) (options : ParserOptions) : Parser :=
  ((Parser.mk tokens Token.dummy Token.dummy [] options 0).advance).2

/-- `Parser::parse`: the statement forest plus the collected diagnostics. -/
def Parser.parse (fuel : Nat) (p : Parser) : List Stmt × List ParseError :=
  let (stmts, p') := parse_program fuel p
  (stmts, p'.diagnostics)

/-! ## Scanner revision `src/scanner.rs` (cursor over a char vector,
`take_select` dispatch).  Its token enum differs from `src/token.rs` (it has
`NewLine`, a payload-less `Whitespace`, and line-based tokens), so it gets
its own kind type. -/

namespace ScannerRs

/-- The token kinds this scanner revision produces (modelled from its own
uses; the matching `token.rs` revision is not among the sources). -/
inductive SK where
  | LeftParen
  | RightParen
  | LeftBrace
  | RightBrace
  | Semicolon
  | Comma
  | Dot
  | Bang
  | BangEqual
  | Equal
  | EqualEqual
  | Greater
  | GreaterEqual
  | Less
  | LessEqual
  | Plus
  | Minus
  | Star
  | Slash
  | String (s : Str)
  | Comment (s : Str)
  | Number (n : Rat)
  | NewLine
  | Whitespace
  | Identifier (name : Str)
  | Nil
  | True
  | False
  | This
  | Super
  | Class
  | And
  | Or
  | If
  | Else
  | Return
  | Fun
  | For
  | While
  | Var
  | Print
  | Typeof
  | Show
  | Eof
deriving DecidableEq, Repr

/-- `scanner::identifier::is_valid_identifier_start` (module text taken from
the `tree-lox` revision, the one this scanner imports). -/
def is_valid_identifier_start (c : Char) : Bool := c.isAlpha || c == '_'

/-- `scanner::identifier::is_valid_identifier_tail`. -/
def is_valid_identifier_tail (c : Char) : Bool := c.isDigit || is_valid_identifier_start c

/-- `scanner::identifier::LOX_KEYWORDS`. -/
def LOX_KEYWORDS : List (String × SK) :=
  [("nil", .Nil), ("true", .True), ("false", .False), ("this", .This),
   ("super", .Super), ("class", .Class), ("and", .And), ("or", .Or),
   ("if", .If), ("else", .Else), ("return", .Return), ("fun", .Fun),
   ("for", .For), ("while", .While), ("var", .Var), ("print", .Print),
   ("typeof", .Typeof), ("show", .Show)]

/-- `char::is_ascii_whitespace`. -/
def is_ascii_whitespace (c : Char) : Bool :=
  c == ' ' || c == '\t' || c == '\n' || c == '\x0d' || c == '\x0c'

/-- The scanner state (`chars`, `line`, `current`, `lexme_start`; the
accumulated token vector is kept by the caller). -/
structure St where
  chars : List Char
  line : Nat
  current : Nat
  lexme_start : Nat
deriving Repr

/-- `Scanner::nth` (out of range yields `'\0'`). -/
def St.nth (s : St) (n : Nat) : Char := s.chars.getD n (Char.ofNat 0)

/-- `Scanner::peek`. -/
def St.peek (s : St) (offset : Nat) : Char := s.nth (s.current + offset)

/-- `Scanner::current` (the cursor's character, not yet consumed). -/
def St.cur (s : St) : Char := s.peek 0

/-- `Scanner::advance`: return the current character, bump the cursor. -/
def St.advance (s : St) : Char × St := (s.nth s.current, { s with current := s.current + 1 })

/-- `Scanner::take`. -/
def St.take (s : St) (expected : Char) : Bool × St :=
  if s.cur == expected then (true, (s.advance).2) else (false, s)

/-- `Scanner::take_select`. -/
def St.take_select {T : Type} (s : St) (expected : Char) (a b : T) : T × St :=
  let (m, s') := s.take expected
  (if m then a else b, s')

/-- `Scanner::is_at_end`. -/
def St.is_at_end (s : St) : Bool := s.current ≥ s.chars.length

/-- `Scanner::lexme`: the current lexeme with bound offsets. -/
def St.lexme (s : St) (lo hi : Int) : Str :=
  let l := ((s.lexme_start : Int) + lo).toNat
  let h := ((s.current : Int) + hi).toNat
  ((s.chars.drop l).take (h - l)).asString

/-- Digit-list value. -/
def digits_val (l : List Char) : Nat := l.foldl (fun a c => a * 10 + (c.toNat - 48)) 0

/-- `str::parse::<f64>` on the decimal shapes this scanner produces
(digits, optional fraction), exact under the `Rat` model. -/
def parse_decimal (cs : List Char) : Rat :=
  let ip := cs.takeWhile (fun c => c != '.')
  let rest := cs.dropWhile (fun c => c != '.')
  match rest with
  | [] => (digits_val ip : Rat)
  | _ :: fp => (digits_val ip : Rat) + (digits_val fp : Rat) / ((10 : Rat) ^ fp.length)

/-- The `while` of `Scanner::string`: consume to the closing quote. -/
def string_loop : Nat → St → St
  | 0, s => s
  | fuel + 1, s =>
    if s.cur != '"' && !s.is_at_end then
      let s₁ := if s.cur == '\n' then { s with line := s.line + 1 } else s
      string_loop fuel (s₁.advance).2
    else s

/-- `Scanner::string`. -/
def string_rule (fuel : Nat) (s : St) : Except Str SK × St :=
  let s₁ := string_loop fuel s
  if s₁.is_at_end then (.error "Unterminated string", s₁)
  else
    let s₂ := (s₁.advance).2
    (.ok (.String (s₂.lexme 1 (-1))), s₂)

/-- The `while` of `Scanner::comment_or_slash`. -/
def comment_loop : Nat → St → St
  | 0, s => s
  | fuel + 1, s =>
    if s.cur != '\n' && !s.is_at_end then comment_loop fuel (s.advance).2 else s

/-- `Scanner::comment_or_slash`. -/
def comment_or_slash (fuel : Nat) (s : St) : SK × St :=
  let (took, s₁) := s.take '/'
  if took then
    let s₂ := comment_loop fuel s₁
    (.Comment (s₂.lexme 2 0), s₂)
  else (.Slash, s₁)

/-- Digit run of `Scanner::number`. -/
def digit_loop : Nat → St → St
  | 0, s => s
  | fuel + 1, s => if s.cur.isDigit then digit_loop fuel (s.advance).2 else s

/-- `Scanner::number`: digits, then a fraction only when the `.` is followed
by a digit (two-character lookahead). -/
def number_rule (fuel : Nat) (s : St) : Except Str SK × St :=
  let s₁ := digit_loop fuel s
  let s₂ :=
    if s₁.cur == '.' && (s₁.peek 1).isDigit then digit_loop fuel ((s₁.advance).2)
    else s₁
  (.ok (.Number (parse_decimal (s₂.lexme 0 0).toList)), s₂)

/-- `Scanner::new_line_or_whitespace`. -/
def new_line_or_whitespace (c : Char) (s : St) : SK × St :=
  if c == '\n' then (.NewLine, { s with line := s.line + 1 }) else (.Whitespace, s)

/-- Identifier run of `Scanner::identifier_or_keyword`. -/
def ident_loop : Nat → St → St
  | 0, s => s
  | fuel + 1, s =>
    if is_valid_identifier_tail s.cur then ident_loop fuel (s.advance).2 else s

/-- `Scanner::identifier_or_keyword`. -/
def identifier_or_keyword (fuel : Nat) (s : St) : SK × St :=
  let s₁ := ident_loop fuel s
  let name := s₁.lexme 0 0
  match assocGet LOX_KEYWORDS name with
  | some k => (k, s₁)
  | none => (.Identifier name, s₁)

/-- `Scanner::scan_token_kind`: dispatch on the consumed character; one- and
two-character operators are disambiguated by `take_select` on `'='`. -/
def scan_token_kind (fuel : Nat) (s : St) : Except Str SK × St :=
  let (c, s₁) := s.advance
  match c with
  | '(' => (.ok .LeftParen, s₁)
  | ')' => (.ok .RightParen, s₁)
  | '{' => (.ok .LeftBrace, s₁)
  | '}' => (.ok .RightBrace, s₁)
  | ';' => (.ok .Semicolon, s₁)
  | ',' => (.ok .Comma, s₁)
  | '.' => (.ok .Dot, s₁)
  | '!' =>
    let (k, s₂) := s₁.take_select '=' SK.BangEqual SK.Bang
    (.ok k, s₂)
  | '=' =>
    let (k, s₂) := s₁.take_select '=' SK.EqualEqual SK.Equal
    (.ok k, s₂)
  | '>' =>
    let (k, s₂) := s₁.take_select '=' SK.GreaterEqual SK.Greater
    (.ok k, s₂)
  | '<' =>
    let (k, s₂) := s₁.take_select '=' SK.LessEqual SK.Less
    (.ok k, s₂)
  | '+' => (.ok .Plus, s₁)
  | '-' => (.ok .Minus, s₁)
  | '*' => (.ok .Star, s₁)
  | '"' => string_rule fuel s₁
  | '/' =>
    let (k, s₂) := comment_or_slash fuel s₁
    (.ok k, s₂)
  | c =>
    if c.isDigit then number_rule fuel s₁
    else if is_ascii_whitespace c then
      let (k, s₂) := new_line_or_whitespace c s₁
      (.ok k, s₂)
    else if is_valid_identifier_start c then
      let (k, s₂) := identifier_or_keyword fuel s₁
      (.ok k, s₂)
    else (.error ("Unexpected character `" ++ String.singleton c ++ "`."), s₁)

/-- `Scanner::new`. -/
def new (source : String) : St := ⟨source.toList, 1, 0, 0⟩

end ScannerRs

/-! ## Scanner revision `src/scanner/mod.rs` (spanned-char input,
`peek_select` dispatch). -/

namespace ScannerMod

/-- The token kinds this scanner revision produces (its `Whitespace` carries
the character). -/
inductive MK where
  | Eof
  | LeftParen
  | RightParen
  | LeftBrace
  | RightBrace
  | Dot
  | Comma
  | Semicolon
  | Plus
  | Minus
  | Star
  | Slash
  | String (s : Str)
  | Comment (s : Str)
  | Less
  | LessEqual
  | Greater
  | GreaterEqual
  | Bang
  | BangEqual
  | Equal
  | EqualEqual
  | Whitespace (c : Char)
deriving DecidableEq, Repr

/-- Scanner state over the `Input` character stream: `pos` indexes the
current spanned character, `lexme_lo` the lexeme's start.  (The source's
byte spans are char indices here; operator dispatch does not depend on
span arithmetic.) -/
structure St where
  chars : List Char
  pos : Nat
  lexme_lo : Nat
deriving Repr

/-- The current spanned character (`'\0'` past the end, as produced by
`Scanner::peek`'s fallback). -/
def St.cur (s : St) : Char := s.chars.getD s.pos (Char.ofNat 0)

/-- `Scanner::peek`'s character. -/
def St.peekc (s : St) : Char := s.chars.getD (s.pos + 1) (Char.ofNat 0)

/-- `Scanner::advance`. -/
def St.advance (s : St) : St := { s with pos := s.pos + 1 }

/-- `Scanner::is_at_end` (the current character is the `'\0'` sentinel). -/
def St.is_at_end (s : St) : Bool := s.cur == Char.ofNat 0

/-- `Scanner::peek_match`. -/
def St.peek_match (s : St) (expected : Char) : Bool × St :=
  if s.peekc != expected then (false, s) else (true, s.advance)

/-- `Scanner::peek_select`. -/
def St.peek_select {T : Type} (s : St) (expected : Char) (a b : T) : T × St :=
  let (m, s') := s.peek_match expected
  (if m then a else b, s')

/-- Characters between two positions (the `Input::spanned` slices, with
char-index spans). -/
def St.slice (s : St) (lo hi : Nat) : Str := ((s.chars.drop lo).take (hi - lo)).asString

/-- The `while` of `Scanner::string`. -/
def string_loop : Nat → St → St
  | 0, s => s
  | fuel + 1, s =>
    if s.peekc != '"' && !s.is_at_end then string_loop fuel s.advance else s

/-- `Scanner::string`: `peek_expect('"')` fails on an unterminated
literal. -/
def string_rule (fuel : Nat) (s : St) : Except Str MK × St :=
  let s₁ := string_loop fuel s
  if s₁.peekc != '"' then (.error "Unexpected character, expected `\"`", s₁)
  else
    let s₂ := s₁.advance
    (.ok (.String (s₂.slice (s₂.lexme_lo + 1) s₂.pos)), s₂)

/-- The `while` of `Scanner::slash_or_comment`. -/
def comment_loop : Nat → St → St
  | 0, s => s
  | fuel + 1, s =>
    if s.peekc != '\n' && !s.is_at_end then comment_loop fuel s.advance else s

/-- `Scanner::slash_or_comment`. -/
def slash_or_comment (fuel : Nat) (s : St) : MK × St :=
  let (took, s₁) := s.peek_match '/'
  if took then
    let s₂ := comment_loop fuel s₁
    (.Comment (s₂.slice (s₂.lexme_lo + 2) (s₂.pos + 1)), s₂)
  else (.Slash, s₁)

/-- `Scanner::scan_token`'s kind computation.  The `'<'` arm is transcribed
exactly as written in the source: `self.peek_select('=', LessEqual, Equal)`
— a lone `'<'` produces `Equal`, not `Less`. -/
def scan_token (fuel : Nat) (s : St) : Except Str MK × St :=
  let c := s.cur
  match c with
  | '(' => (.ok .LeftParen, s)
  | ')' => (.ok .RightParen, s)
  | '{' => (.ok .LeftBrace, s)
  | '}' => (.ok .RightBrace, s)
  | '.' => (.ok .Dot, s)
  | ',' => (.ok .Comma, s)
  | ';' => (.ok .Semicolon, s)
  | '+' => (.ok .Plus, s)
  | '-' => (.ok .Minus, s)
  | '*' => (.ok .Star, s)
  | '"' => string_rule fuel s
  | '/' =>
    let (k, s') := slash_or_comment fuel s
    (.ok k, s')
  | '<' =>
    let (k, s') := s.peek_select '=' MK.LessEqual MK.Equal
    (.ok k, s')
  | '>' =>
    let (k, s') := s.peek_select '=' MK.GreaterEqual MK.Greater
    (.ok k, s')
  | '!' =>
    let (k, s') := s.peek_select '=' MK.BangEqual MK.Bang
    (.ok k, s')
  | '=' =>
    let (k, s') := s.peek_select '=' MK.EqualEqual MK.Equal
    (.ok k, s')
  | c =>
    if c == Char.ofNat 0 then (.ok .Eof, s)
    else if c.isWhitespace then (.ok (.Whitespace c), s)
    else (.error ("Unexpected character `" ++ String.singleton c ++ "`"), s.advance)

/-- `Scanner::new`. -/
def new (source : String) : St := ⟨source.toList, 0, 0⟩

end ScannerMod

/-- The program `{ var a = (a = 2); }`: a block whose single statement
declares `a` with an initializer that assigns to `a` itself.  The
declaration's identifier carries AST id 1 and the assignment target id 2
(the parser mints a distinct id for every identifier occurrence). -/
def resolver_gap_prog : Stmt :=
  Stmt.mk (Span.new 0 21) (.Block
    [Stmt.mk (Span.new 2 19) (.VarDecl ⟨"a", Span.new 6 7, 1⟩
      (some (Expr.mk (Span.new 10 18) (.Group (Expr.mk (Span.new 11 17)
        (.Assignment ⟨"a", Span.new 11 12, 2⟩
          (Expr.mk (Span.new 15 16) (.Lit (.Number 2)))))))))])

/-! ## Theorems -/

/-- Claim C4: for every evaluation of a binary `/` expression in which both
operands evaluate without error and the right operand evaluates to the
number `0`, interpretation fails with a `ZeroDivision` runtime error whose
primary span is the `/` operator token's span — for every value of the left
operand, since the zero check precedes the both-numbers rule. -/
theorem div_by_zero_before_type_check (fuel : Nat) (sp : Span) (left right : Expr)
    (op : Token) (s s₁ s₂ : Interpreter) (lv : LoxValue)
    (hop : op.kind = .Slash)
    (hl : eval_expr fuel left s = (.ok lv, s₁))
    (hr : eval_expr fuel right s₁ = (.ok (.Number 0), s₂)) :
    eval_expr (fuel + 2) (Expr.mk sp (.Binary left op right)) s
      = (.err (.ZeroDivision op.span), s₂) := by
  simp only [eval_expr, Expr.kind, Expr.span]
  simp only [eval_binary_expr, hl, hr, hop]
  norm_num

/-- Witness for C4: `1 / 0` in a fresh interpreter reports `ZeroDivision`
at the operator's span. -/
theorem div_by_zero_before_type_check_witness :
    eval_expr 3 (Expr.mk (Span.new 0 5) (.Binary (Expr.mk (Span.new 0 1) (.Lit (.Number 1)))
        (Token.mk .Slash (Span.new 2 3)) (Expr.mk (Span.new 4 5) (.Lit (.Number 0)))))
        Interpreter.new
      = (.err (.ZeroDivision (Span.new 2 3)), Interpreter.new) :=
  div_by_zero_before_type_check 1 (Span.new 0 5) (Expr.mk (Span.new 0 1) (.Lit (.Number 1)))
    (Expr.mk (Span.new 4 5) (.Lit (.Number 0))) (Token.mk .Slash (Span.new 2 3))
    Interpreter.new Interpreter.new Interpreter.new (.Number 1) rfl
    (by simp [eval_expr, Expr.kind]) (by simp [eval_expr, Expr.kind])

/-- Claim C5: `==` compares without coercion — functions and objects by
heap reference (index), numbers, strings and booleans by value, `nil == nil`
true, mismatched variants (distinct `type_name`s) unequal — and evaluating
`!=` always yields the boolean negation of `==` on the same operand
values. -/
theorem equality_no_coercion :
    (∀ a b : Nat, lox_is_equal (.Function a) (.Function b) = decide (a = b)) ∧
    (∀ a b : Nat, lox_is_equal (.Object a) (.Object b) = decide (a = b)) ∧
    (∀ a b : Bool, lox_is_equal (.Boolean a) (.Boolean b) = (a == b)) ∧
    (∀ a b : Rat, lox_is_equal (.Number a) (.Number b) = decide (a = b)) ∧
    (∀ a b : String, lox_is_equal (.String a) (.String b) = (a == b)) ∧
    lox_is_equal .Nil .Nil = true ∧
    (∀ a b : LoxValue, a.type_name ≠ b.type_name → lox_is_equal a b = false) ∧
    (∀ (fuel : Nat) (sp : Span) (l r : Expr) (op : Token) (s s₁ s₂ : Interpreter)
        (lv rv : LoxValue),
      eval_expr fuel l s = (.ok lv, s₁) → eval_expr fuel r s₁ = (.ok rv, s₂) →
      (op.kind = .EqualEqual →
        eval_expr (fuel + 2) (Expr.mk sp (.Binary l op r)) s
          = (.ok (.Boolean (lox_is_equal lv rv)), s₂)) ∧
      (op.kind = .BangEqual →
        eval_expr (fuel + 2) (Expr.mk sp (.Binary l op r)) s
          = (.ok (.Boolean (!lox_is_equal lv rv)), s₂))) := by
  refine ⟨?_, ?_, ?_, ?_, ?_, rfl, ?_, ?_⟩
  · intro a b
    simp [lox_is_equal, beq_eq_decide]
  · intro a b
    simp [lox_is_equal, beq_eq_decide]
  · intro a b
    simp [lox_is_equal]
  · intro a b
    simp [lox_is_equal, beq_eq_decide]
  · intro a b
    simp [lox_is_equal]
  · intro a b h
    cases a <;> cases b <;> simp_all [lox_is_equal, LoxValue.type_name]
  · intro fuel sp l r op s s₁ s₂ lv rv hl hr
    constructor
    · intro hop
      simp only [eval_expr, Expr.kind]
      simp only [eval_binary_expr, hl, hr, hop]
    · intro hop
      simp only [eval_expr, Expr.kind]
      simp only [eval_binary_expr, hl, hr, hop]

/-- Witness for C5: `1 == 1` in a fresh interpreter evaluates to the boolean
given by `lox_is_equal`. -/
theorem equality_no_coercion_witness :
    eval_expr 3 (Expr.mk (Span.new 0 6) (.Binary (Expr.mk (Span.new 0 1) (.Lit (.Number 1)))
        (Token.mk .EqualEqual (Span.new 2 4)) (Expr.mk (Span.new 5 6) (.Lit (.Number 1)))))
        Interpreter.new
      = (.ok (.Boolean (lox_is_equal (.Number 1) (.Number 1))), Interpreter.new) :=
  (equality_no_coercion.2.2.2.2.2.2.2 1 (Span.new 0 6)
    (Expr.mk (Span.new 0 1) (.Lit (.Number 1))) (Expr.mk (Span.new 5 6) (.Lit (.Number 1)))
    (Token.mk .EqualEqual (Span.new 2 4)) Interpreter.new Interpreter.new Interpreter.new
    (.Number 1) (.Number 1) (by simp [eval_expr, Expr.kind])
    (by simp [eval_expr, Expr.kind])).1 rfl

/-- Claim C8: a `Block` statement runs its statements in a fresh frame that
encloses the current environment (the frame's index was unused and its
`enclosing` link is the old current environment), and the interpreter's
current environment is exactly the pre-block one afterwards, whatever the
outcome (ok, runtime error, return signal, or even fuel exhaustion). -/
theorem block_env_fresh_and_restored :
    (∀ (fuel : Nat) (sp : Span) (stmts : List Stmt) (s : Interpreter),
      eval_stmt (fuel + 1) (Stmt.mk sp (.Block stmts)) s
        = eval_block fuel stmts s.envs.length { s with envs := s.envs ++ [⟨some s.env, []⟩] }) ∧
    (∀ (s : Interpreter),
      (s.newEnclosed s.env).2.getFrame (s.newEnclosed s.env).1 = some ⟨some s.env, []⟩ ∧
      (s.newEnclosed s.env).1 = s.envs.length ∧
      s.getFrame (s.newEnclosed s.env).1 = none) ∧
    (∀ (fuel : Nat) (stmts : List Stmt) (ne : Nat) (s : Interpreter),
      ((eval_block fuel stmts ne s).2).env = s.env) ∧
    (∀ (fuel : Nat) (stmts : List Stmt) (ne : Nat) (s : Interpreter),
      eval_block (fuel + 1) stmts ne s
        = ((eval_stmts fuel stmts { s with env := ne }).1,
           { (eval_stmts fuel stmts { s with env := ne }).2 with env := s.env })) := by
  refine ⟨?_, ?_, ?_, ?_⟩
  · intro fuel sp stmts s
    simp [eval_stmt, Stmt.kind, Interpreter.newEnclosed]
  · intro s
    refine ⟨?_, rfl, ?_⟩
    · simp [Interpreter.newEnclosed, Interpreter.getFrame, List.get?_concat_length]
    · simp [Interpreter.newEnclosed, Interpreter.getFrame, List.get?_eq_none]
  · intro fuel stmts ne s
    cases fuel with
    | zero => simp [eval_block]
    | succ n => simp [eval_block]
  · intro fuel stmts ne s
    simp [eval_block]

/-- Claim C9: an assignment expression that evaluates without error yields
the value its right-hand side evaluated to — whether stored at a resolved
distance or through the global fallback — and a property-set expression on
an instance yields the assigned value as well. -/
theorem assignment_yields_assigned_value :
    (∀ (fuel : Nat) (sp : Span) (name : LoxIdent) (value : Expr) (s : Interpreter)
        (v : LoxValue) (s₁ : Interpreter) (w : LoxValue) (s₂ : Interpreter),
      eval_expr fuel value s = (.ok v, s₁) →
      eval_expr (fuel + 2) (Expr.mk sp (.Assignment name value)) s = (.ok w, s₂) → w = v) ∧
    (∀ (fuel : Nat) (sp : Span) (object : Expr) (name : LoxIdent) (value : Expr)
        (s : Interpreter) (i : Nat) (s₁ : Interpreter) (v : LoxValue) (s₂ : Interpreter),
      eval_expr fuel object s = (.ok (.Object i), s₁) →
      eval_expr fuel value s₁ = (.ok v, s₂) →
      eval_expr (fuel + 2) (Expr.mk sp (.Set object name value)) s
        = (.ok v, s₂.instance_set i name v)) := by
  constructor
  · intro fuel sp name value s v s₁ w s₂ hv h
    simp only [eval_expr, Expr.kind] at h
    simp only [eval_assignment_expr, hv] at h
    cases hL : assocGet s₁.locals name.id with
    | some d =>
      simp only [hL] at h
      cases hA : s₁.assign_at s₁.env d name.name v with
      | some s' =>
        simp [hA] at h
        exact h.1.symm
      | none => simp [hA] at h
    | none =>
      simp only [hL] at h
      cases hE : s₁.envAssign (s₁.envs.length + 1) s₁.globals name v <;>
        simp [hE, RunRes.cast] at h
      exact h.1.symm
  · intro fuel sp object name value s i s₁ v s₂ hobj hv
    simp only [eval_expr, Expr.kind]
    simp only [eval_set_expr, hobj, ensure_object, hv]

/-- Witness for C9: assigning `5` to the global `clock` yields the assigned
value `5`. -/
theorem assignment_yields_assigned_value_witness : (LoxValue.Number 5 : LoxValue) = .Number 5 :=
  assignment_yields_assigned_value.1 1 (Span.new 0 0) ⟨"clock", Span.new 0 0, 7⟩
    (Expr.mk (Span.new 0 0) (.Lit (.Number 5))) Interpreter.new (.Number 5) Interpreter.new
    (.Number 5)
    { locals := [], globals := 0, env := 0,
      envs := [⟨none, [("clock", .Number 5), ("clock", .Function 0)]⟩],
      fns := [.NativeFunction "clock" 0], insts := [], output := [] }
    (by simp [eval_expr, Expr.kind])
    (by simp [eval_expr, Expr.kind, eval_assignment_expr, assocGet, Interpreter.envAssign,
          Interpreter.getFrame, Interpreter.setFrame, assocSet, Interpreter.new])

/-- Claim C10: a property-set expression evaluates and checks its object
before the right-hand side; a non-instance object yields the
`UnsupportedType` error at the property name's span with the state exactly
as it was after evaluating the object — the right-hand side is never
evaluated and contributes no side effect. -/
theorem set_on_non_instance_skips_value (fuel : Nat) (sp : Span) (object value : Expr)
    (name : LoxIdent) (s s₁ : Interpreter) (w : LoxValue)
    (hobj : eval_expr fuel object s = (.ok w, s₁))
    (hni : ∀ i, w ≠ .Object i) :
    eval_expr (fuel + 2) (Expr.mk sp (.Set object name value)) s
      = (.err (.UnsupportedType "Only objects (instances of some class) have properties"
          name.span), s₁) := by
  simp only [eval_expr, Expr.kind]
  simp only [eval_set_expr, hobj]
  cases w with
  | Object i => exact absurd rfl (hni i)
  | Function i => simp [ensure_object, RunRes.cast]
  | Boolean b => simp [ensure_object, RunRes.cast]
  | Number n => simp [ensure_object, RunRes.cast]
  | String str => simp [ensure_object, RunRes.cast]
  | Nil => simp [ensure_object, RunRes.cast]

/-- Witness for C10: `1.x = 9` fails with the properties error and leaves
the fresh interpreter untouched. -/
theorem set_on_non_instance_skips_value_witness :
    eval_expr 3 (Expr.mk (Span.new 0 9) (.Set (Expr.mk (Span.new 0 1) (.Lit (.Number 1)))
        ⟨"x", Span.new 2 3, 5⟩ (Expr.mk (Span.new 6 7) (.Lit (.Number 9))))) Interpreter.new
      = (.err (.UnsupportedType "Only objects (instances of some class) have properties"
          (Span.new 2 3)), Interpreter.new) :=
  set_on_non_instance_skips_value 1 (Span.new 0 9) (Expr.mk (Span.new 0 1) (.Lit (.Number 1)))
    (Expr.mk (Span.new 6 7) (.Lit (.Number 9))) ⟨"x", Span.new 2 3, 5⟩
    Interpreter.new Interpreter.new (.Number 1)
    (by simp [eval_expr, Expr.kind]) (by simp)

/-- Claim C2: a call of a user function with `is_class_init = true` produces
the `this` bound at distance `0` in the function's closure whether the body
completed normally or through a return signal (the body's own value is
discarded), while a runtime error in the body propagates to the caller. -/
theorem init_call_returns_this (fuel : Nat) (decl : FunDecl) (closure : Nat)
    (args : List LoxValue) (s : Interpreter) :
    (∀ (u : Unit) (s₃ : Interpreter) (t : LoxValue),
      eval_block fuel decl.body (s.newEnclosed closure).1
          (define_params (s.newEnclosed closure).2 (s.newEnclosed closure).1
            (decl.params.zip args))
        = (.ok u, s₃) →
      s₃.read_at closure 0 "this" = some t →
      lox_function_call (fuel + 1) decl closure true args s = (.ok t, s₃)) ∧
    (∀ (v : LoxValue) (s₃ : Interpreter) (t : LoxValue),
      eval_block fuel decl.body (s.newEnclosed closure).1
          (define_params (s.newEnclosed closure).2 (s.newEnclosed closure).1
            (decl.params.zip args))
        = (.ret v, s₃) →
      s₃.read_at closure 0 "this" = some t →
      lox_function_call (fuel + 1) decl closure true args s = (.ok t, s₃)) ∧
    (∀ (er : RuntimeError) (s₃ : Interpreter),
      eval_block fuel decl.body (s.newEnclosed closure).1
          (define_params (s.newEnclosed closure).2 (s.newEnclosed closure).1
            (decl.params.zip args))
        = (.err er, s₃) →
      lox_function_call (fuel + 1) decl closure true args s = (.err er, s₃)) := by
  refine ⟨?_, ?_, ?_⟩
  · intro u s₃ t hblock hthis
    simp only [Interpreter.newEnclosed] at hblock
    simp only [lox_function_call, Interpreter.newEnclosed, hblock]
    simp [lox_function_finish, hthis]
  · intro v s₃ t hblock hthis
    simp only [Interpreter.newEnclosed] at hblock
    simp only [lox_function_call, Interpreter.newEnclosed, hblock]
    simp [lox_function_finish, hthis]
  · intro er s₃ hblock
    simp only [Interpreter.newEnclosed] at hblock
    simp only [lox_function_call, Interpreter.newEnclosed, hblock]

/-- Witness for C2: calling an empty `init` whose closure binds `this` to
instance `0` yields that instance. -/
theorem init_call_returns_this_witness :
    lox_function_call 3 (FunDecl.mk ⟨"init", Span.new 0 0, 9⟩ [] [] (Span.new 0 0)) 1 true []
        { locals := [], globals := 0, env := 0,
          envs := [⟨none, []⟩, ⟨some 0, [("this", .Object 0)]⟩],
          fns := [], insts := [⟨0, []⟩], output := [] }
      = (.ok (.Object 0),
         { locals := [], globals := 0, env := 0,
           envs := [⟨none, []⟩, ⟨some 0, [("this", .Object 0)]⟩, ⟨some 1, []⟩],
           fns := [], insts := [⟨0, []⟩], output := [] }) :=
  (init_call_returns_this 2 (FunDecl.mk ⟨"init", Span.new 0 0, 9⟩ [] [] (Span.new 0 0)) 1 []
    { locals := [], globals := 0, env := 0,
      envs := [⟨none, []⟩, ⟨some 0, [("this", .Object 0)]⟩],
      fns := [], insts := [⟨0, []⟩], output := [] }).1 ()
    { locals := [], globals := 0, env := 0,
      envs := [⟨none, []⟩, ⟨some 0, [("this", .Object 0)]⟩, ⟨some 1, []⟩],
      fns := [], insts := [⟨0, []⟩], output := [] } (.Object 0)
    (by simp [Interpreter.newEnclosed, define_params, eval_block, eval_stmts,
          FunDecl.body, FunDecl.params])
    (by simp [Interpreter.read_at, Interpreter.ancestor, Interpreter.getFrame, assocGet])

/-- Claim C6 (code bug in the `src/scanner/mod.rs` revision): the
`src/scanner.rs` revision disambiguates every one- or two-character operator
by peeking the next character as the claim states (`<` alone is `Less`, `<=`
is `LessEqual`, and correspondingly for `>`, `!`, `=`); but the
`src/scanner/mod.rs` revision's line `'<' => self.peek_select('=',
LessEqual, Equal)` makes a lone `<` scan as an `Equal` token instead of
`Less`, contradicting the repository's own scanner tests
(`tests/scanner.rs` pins `"<"` to `Less`). -/
theorem scanner_less_token_divergence :
    (ScannerRs.scan_token_kind 1 (ScannerRs.new "<")).1 = .ok .Less ∧
    (ScannerRs.scan_token_kind 1 (ScannerRs.new "<=")).1 = .ok .LessEqual ∧
    (ScannerRs.scan_token_kind 1 (ScannerRs.new ">")).1 = .ok .Greater ∧
    (ScannerRs.scan_token_kind 1 (ScannerRs.new ">=")).1 = .ok .GreaterEqual ∧
    (ScannerRs.scan_token_kind 1 (ScannerRs.new "!")).1 = .ok .Bang ∧
    (ScannerRs.scan_token_kind 1 (ScannerRs.new "!=")).1 = .ok .BangEqual ∧
    (ScannerRs.scan_token_kind 1 (ScannerRs.new "=")).1 = .ok .Equal ∧
    (ScannerRs.scan_token_kind 1 (ScannerRs.new "==")).1 = .ok .EqualEqual ∧
    (ScannerMod.scan_token 1 (ScannerMod.new "<")).1 = .ok .Equal ∧
    (ScannerMod.scan_token 1 (ScannerMod.new "<=")).1 = .ok .LessEqual :=
  ⟨rfl, rfl, rfl, rfl, rfl, rfl, rfl, rfl, rfl, rfl⟩

/-- General form of the two dispatches at `'<'`, for any scanner state: the
`take_select` revision selects `LessEqual`/`Less` by the next character,
the `peek_select` revision selects `LessEqual`/`Equal`. -/
theorem scanner_less_dispatch_general :
    (∀ (fuel : Nat) (s : ScannerRs.St), s.nth s.current = '<' →
      (ScannerRs.scan_token_kind fuel s).1
        = .ok (if s.nth (s.current + 1) == '=' then .LessEqual else .Less)) ∧
    (∀ (fuel : Nat) (m : ScannerMod.St), m.cur = '<' →
      (ScannerMod.scan_token fuel m).1
        = .ok (if m.peekc == '=' then .LessEqual else .Equal)) := by
  constructor
  · intro fuel s h
    simp only [ScannerRs.scan_token_kind, ScannerRs.St.advance, h]
    simp only [ScannerRs.St.take_select, ScannerRs.St.take, ScannerRs.St.cur,
      ScannerRs.St.peek, ScannerRs.St.nth]
    split <;> simp_all
  · intro fuel m h
    simp only [ScannerMod.scan_token, h]
    simp only [ScannerMod.St.peek_select, ScannerMod.St.peek_match, ScannerMod.St.peekc]
    split <;> simp_all

/-- Claim C3: every successfully parsed `for (INIT; COND; INCR) BODY`
desugars with no `For` node: the result is
`Block [INIT, While (COND, Block [BODY, Expr INCR])]`, the outer `Block`
omitted when `INIT` is absent, the inner `Block` omitted when `INCR` is
absent (first four conjuncts); a successful `parse_for_stmt` always returns
`desugar_for` of the parsed clauses and body (fifth conjunct); a missing
`COND` (current token `;`) is synthesized as a `true` literal, and otherwise
the condition is the parsed expression (last two conjuncts). -/
theorem for_loop_desugaring :
    (∀ (fs : Span) (cond : Expr) (body : Stmt),
      desugar_for fs none cond none body = Stmt.mk (fs.join body.span) (.While cond body)) ∧
    (∀ (fs : Span) (cond x : Expr) (body : Stmt),
      desugar_for fs none cond (some x) body
        = Stmt.mk (fs.join body.span)
            (.While cond (Stmt.mk body.span (.Block [body, Stmt.mk x.span (.Expr x)])))) ∧
    (∀ (fs : Span) (i : Stmt) (cond : Expr) (body : Stmt),
      desugar_for fs (some i) cond none body
        = Stmt.mk (fs.join body.span)
            (.Block [i, Stmt.mk (fs.join body.span) (.While cond body)])) ∧
    (∀ (fs : Span) (i : Stmt) (cond x : Expr) (body : Stmt),
      desugar_for fs (some i) cond (some x) body
        = Stmt.mk (fs.join body.span)
            (.Block [i, Stmt.mk (fs.join body.span)
              (.While cond (Stmt.mk body.span (.Block [body, Stmt.mk x.span (.Expr x)])))])) ∧
    (∀ (fuel : Nat) (p p' : Parser) (r : Stmt),
      parse_for_stmt (fuel + 1) p = (.ok r, p') →
      ∃ for_tok p₁ init cond incr p₂ body,
        p.consume .For S_MUST = (.ok for_tok, p₁) ∧
        Parser.paired p₁ .LeftParen "Expected `for` clauses group opening"
          "Expected `for` clauses group to be closed" (parse_for_clauses fuel)
          = (.ok (init, cond, incr), p₂) ∧
        parse_stmt fuel p₂ = (.ok body, p') ∧
        r = desugar_for for_tok.span init cond incr body) ∧
    (∀ (fuel : Nat) (p : Parser), p.current_token.kind = .Semicolon →
      parse_for_cond (fuel + 1) p
        = (.ok (Expr.mk (Span.new p.current_token.span.lo p.current_token.span.lo)
            (.Lit (.Boolean true))), p)) ∧
    (∀ (fuel : Nat) (p : Parser), p.current_token.kind ≠ .Semicolon →
      parse_for_cond (fuel + 1) p = parse_expr fuel p) := by
  refine ⟨?_, ?_, ?_, ?_, ?_, ?_, ?_⟩
  · intro fs cond body
    rfl
  · intro fs cond x body
    rfl
  · intro fs i cond body
    rfl
  · intro fs i cond x body
    rfl
  · intro fuel p p' r h
    simp only [parse_for_stmt] at h
    split at h
    · rename_i for_tok p₁ heq₁
      split at h
      · rename_i init cond incr p₂ heq₂
        split at h
        · rename_i body p₃ heq₃
          simp at h
          exact ⟨for_tok, p₁, init, cond, incr, p₂, body, heq₁, heq₂,
            by rw [heq₃, h.2], h.1.symm⟩
        · simp at h
      · simp at h
    · simp at h
  · intro fuel p h
    simp [parse_for_cond, h]
  · intro fuel p h
    simp only [parse_for_cond]

/-- Witness for C3: at a `;` condition clause the parser synthesizes the
`true` literal at the semicolon's low position. -/
theorem for_loop_desugaring_witness :
    parse_for_cond 1
        (Parser.new [Token.mk .Semicolon (Span.new 5 6), Token.mk .Eof (Span.new 7 7)] ⟨false⟩)
      = (.ok (Expr.mk (Span.new 5 5) (.Lit (.Boolean true))),
         Parser.new [Token.mk .Semicolon (Span.new 5 6), Token.mk .Eof (Span.new 7 7)] ⟨false⟩) :=
  for_loop_desugaring.2.2.2.2.2.1 0
    (Parser.new [Token.mk .Semicolon (Span.new 5 6), Token.mk .Eof (Span.new 7 7)] ⟨false⟩) rfl

theorem mem_errors_error (r : Resolver) (sp : Span) (m : String) (e : ResolveError)
    (h : e ∈ r.errors) : e ∈ (r.error sp m).errors :=
  List.mem_cons_of_mem _ h

theorem mem_errors_declare (r : Resolver) (id : LoxIdent) (e : ResolveError)
    (h : e ∈ r.errors) : e ∈ (r.declare id).errors := by
  unfold Resolver.declare
  split
  · exact h
  · split
    · exact h
    · exact List.mem_cons_of_mem _ h

theorem mem_errors_define (r : Resolver) (id : LoxIdent) (e : ResolveError)
    (h : e ∈ r.errors) : e ∈ (r.define id).errors := by
  unfold Resolver.define
  split
  · exact h
  · split
    · exact h
    · exact List.mem_cons_of_mem _ h

theorem mem_errors_init_binding (r : Resolver) (n : String) (e : ResolveError)
    (h : e ∈ r.errors) : e ∈ (r.init_binding n).errors := by
  unfold Resolver.init_binding
  split <;> exact h

theorem mem_errors_resolve_binding (r : Resolver) (id : LoxIdent) (e : ResolveError)
    (h : e ∈ r.errors) : e ∈ (r.resolve_binding id).errors := by
  unfold Resolver.resolve_binding
  split <;> exact h

theorem mem_errors_if_error (b : Bool) (r : Resolver) (sp : Span) (m : String)
    (e : ResolveError) (h : e ∈ r.errors) : e ∈ (if b then r.error sp m else r).errors := by
  cases b with
  | true => exact mem_errors_error _ _ _ _ h
  | false => exact h

theorem mem_errors_declare_params (r : Resolver) (params : List LoxIdent) (e : ResolveError)
    (h : e ∈ r.errors) : e ∈ (r.declare_params params).errors := by
  induction params generalizing r with
  | nil => exact h
  | cons p rest ih =>
    have hstep : Resolver.declare_params r (p :: rest)
        = Resolver.declare_params ((r.declare p).define p) rest := rfl
    rw [hstep]
    exact ih _ (mem_errors_define _ _ _ (mem_errors_declare _ _ _ h))

mutual

theorem errors_mono_stmts : ∀ (l : List Stmt) (r : Resolver) (e : ResolveError),
    e ∈ r.errors → e ∈ (resolve_stmts r l).errors
  | [], _, _, h => by
    simp only [resolve_stmts]
    exact h
  | st :: rest, r, e, h => by
    simp only [resolve_stmts]
    exact errors_mono_stmts rest _ e (errors_mono_stmt st r e h)

theorem errors_mono_stmt : ∀ (st : Stmt) (r : Resolver) (e : ResolveError),
    e ∈ r.errors → e ∈ (resolve_stmt r st).errors
  | ⟨_, .VarDecl name init⟩, r, e, h => by
    simp only [resolve_stmt]
    cases init with
    | none => exact mem_errors_define _ _ _ (mem_errors_declare _ _ _ h)
    | some i =>
      exact mem_errors_define _ _ _ (errors_mono_expr i _ _ (mem_errors_declare _ _ _ h))
  | ⟨_, .ClassDecl name _ methods⟩, r, e, h => by
    simp only [resolve_stmt]
    exact errors_mono_methods methods _ e (mem_errors_init_binding _ _ _
      (mem_errors_define _ _ _ (mem_errors_declare _ _ _ h)))
  | ⟨_, .FunDecl f⟩, r, e, h => by
    simp only [resolve_stmt]
    exact errors_mono_function f _ _ e (mem_errors_define _ _ _ (mem_errors_declare _ _ _ h))
  | ⟨_, .If cond tb eb⟩, r, e, h => by
    cases eb with
    | none =>
      simp only [resolve_stmt]
      exact errors_mono_stmt tb _ e (errors_mono_expr cond _ e h)
    | some el =>
      simp only [resolve_stmt]
      exact errors_mono_stmt el _ e (errors_mono_stmt tb _ e (errors_mono_expr cond _ e h))
  | ⟨_, .While cond body⟩, r, e, h => by
    simp only [resolve_stmt]
    exact errors_mono_stmt body _ e (errors_mono_expr cond _ e h)
  | ⟨_, .Return rs value⟩, r, e, h => by
    simp only [resolve_stmt]
    cases value with
    | none => exact mem_errors_if_error _ _ _ _ _ h
    | some v =>
      exact errors_mono_expr v _ e
        (mem_errors_if_error _ _ _ _ _ (mem_errors_if_error _ _ _ _ _ h))
  | ⟨_, .Print ex _⟩, r, e, h => by
    simp only [resolve_stmt]
    exact errors_mono_expr ex _ e h
  | ⟨_, .Block stmts⟩, r, e, h => by
    simp only [resolve_stmt]
    exact errors_mono_stmts stmts _ e h
  | ⟨_, .Expr ex⟩, r, e, h => by
    simp only [resolve_stmt]
    exact errors_mono_expr ex _ e h
  | ⟨_, .Dummy⟩, r, e, h => h

theorem errors_mono_methods : ∀ (l : List FunDecl) (r : Resolver) (e : ResolveError),
    e ∈ r.errors → e ∈ (resolve_methods r l).errors
  | [], _, _, h => by
    simp only [resolve_methods]
    exact h
  | m :: rest, r, e, h => by
    simp only [resolve_methods]
    exact errors_mono_methods rest _ e (errors_mono_function m _ _ e h)

theorem errors_mono_function : ∀ (f : FunDecl) (fs : FunctionState) (r : Resolver)
    (e : ResolveError), e ∈ r.errors → e ∈ (resolve_function r f fs).errors
  | ⟨_, params, body, _⟩, fs, r, e, h => by
    simp only [resolve_function]
    exact errors_mono_stmts body _ e (mem_errors_declare_params _ _ _ h)

theorem errors_mono_expr : ∀ (ex : Expr) (r : Resolver) (e : ResolveError),
    e ∈ r.errors → e ∈ (resolve_expr r ex).errors
  | ⟨_, .Lit _⟩, r, e, h => by
    simp only [resolve_expr]
    exact h
  | ⟨_, .This t⟩, r, e, h => by
    simp only [resolve_expr]
    exact mem_errors_resolve_binding _ _ _ (mem_errors_if_error _ _ _ _ _ h)
  | ⟨_, .Var v⟩, r, e, h => by
    simp only [resolve_expr]
    split
    · exact mem_errors_error _ _ _ _ h
    · exact mem_errors_resolve_binding _ _ _ h
  | ⟨_, .Group g⟩, r, e, h => by
    simp only [resolve_expr]
    exact errors_mono_expr g _ e h
  | ⟨_, .Super _ _⟩, r, e, h => by
    simp only [resolve_expr]
    exact h
  | ⟨_, .Get o _⟩, r, e, h => by
    simp only [resolve_expr]
    exact errors_mono_expr o _ e h
  | ⟨_, .Set o _ v⟩, r, e, h => by
    simp only [resolve_expr]
    exact errors_mono_expr v _ e (errors_mono_expr o _ e h)
  | ⟨_, .Call c args⟩, r, e, h => by
    simp only [resolve_expr]
    exact errors_mono_exprs args _ e (errors_mono_expr c _ e h)
  | ⟨_, .Unary _ o⟩, r, e, h => by
    simp only [resolve_expr]
    exact errors_mono_expr o _ e h
  | ⟨_, .Binary l _ rr⟩, r, e, h => by
    simp only [resolve_expr]
    exact errors_mono_expr rr _ e (errors_mono_expr l _ e h)
  | ⟨_, .Logical l _ rr⟩, r, e, h => by
    simp only [resolve_expr]
    exact errors_mono_expr rr _ e (errors_mono_expr l _ e h)
  | ⟨_, .Assignment n v⟩, r, e, h => by
    simp only [resolve_expr]
    exact mem_errors_resolve_binding _ _ _ (errors_mono_expr v _ e h)

theorem errors_mono_exprs : ∀ (l : List Expr) (r : Resolver) (e : ResolveError),
    e ∈ r.errors → e ∈ (resolve_exprs r l).errors
  | [], _, _, h => by
    simp only [resolve_exprs]
    exact h
  | ex :: rest, r, e, h => by
    simp only [resolve_exprs]
    exact errors_mono_exprs rest _ e (errors_mono_expr ex _ e h)

end




theorem assocGet_assocSet_self {α : Type} (m : List (String × α)) (k : String) (v : α) :
    assocGet (assocSet m k v) k = some v := by
  simp [assocGet, assocSet, List.find?]

theorem assocGet_assocSet_isSome {α : Type} (m : List (String × α)) (k n : String) (v : α)
    (h : (assocGet m n).isSome) : (assocGet (assocSet m k v) n).isSome := by
  cases hk : (k == n) with
  | true => simp [assocGet, assocSet, List.find?, hk]
  | false =>
    simp only [assocGet, assocSet, List.find?, hk]
    simpa [assocGet] using h

theorem scopes_has_declare (r : Resolver) (id : LoxIdent) (n : String)
    (h : scopes_has r n) : scopes_has (r.declare id) n := by
  obtain ⟨top, rest, hs, hg⟩ := h
  cases hG : assocGet top id.name with
  | none =>
    refine ⟨assocSet top id.name .Declared, rest, ?_, assocGet_assocSet_isSome _ _ _ _ hg⟩
    simp [Resolver.declare, hs, hG]
  | some b =>
    refine ⟨top, rest, ?_, hg⟩
    simp [Resolver.declare, Resolver.error, hs, hG]

theorem scopes_has_define (r : Resolver) (id : LoxIdent) (n : String)
    (h : scopes_has r n) : scopes_has (r.define id) n := by
  obtain ⟨top, rest, hs, hg⟩ := h
  cases hG : assocGet top id.name with
  | none =>
    refine ⟨top, rest, ?_, hg⟩
    simp [Resolver.define, Resolver.error, hs, hG]
  | some b =>
    refine ⟨assocSet top id.name .Initialized, rest, ?_, assocGet_assocSet_isSome _ _ _ _ hg⟩
    simp [Resolver.define, hs, hG]

theorem scopes_has_declare_define_self (r : Resolver) (p : LoxIdent)
    (top : List (String × BindingState)) (rest : List (List (String × BindingState)))
    (hs : r.scopes = top :: rest) : scopes_has ((r.declare p).define p) p.name := by
  cases hG : assocGet top p.name with
  | none =>
    have h1 : r.declare p = { r with scopes := assocSet top p.name .Declared :: rest } := by
      simp [Resolver.declare, hs, hG]
    rw [h1]
    have h2 : assocGet (assocSet top p.name .Declared) p.name = some .Declared :=
      assocGet_assocSet_self _ _ _
    refine ⟨assocSet (assocSet top p.name .Declared) p.name .Initialized, rest, ?_, ?_⟩
    · simp [Resolver.define, h2]
    · rw [assocGet_assocSet_self]
      rfl
  | some b =>
    have h1 : r.declare p = r.error p.span "Can't shadow a identifier in the same scope" := by
      simp [Resolver.declare, hs, hG]
    rw [h1]
    exact scopes_has_define _ _ _ ⟨top, rest, by simp [Resolver.error, hs], by simp [hG]⟩

theorem declare_occupied (r : Resolver) (id : LoxIdent) (top : List (String × BindingState))
    (rest : List (List (String × BindingState))) (hs : r.scopes = top :: rest)
    (hocc : (assocGet top id.name).isSome) :
    r.declare id
      = r.error id.span "Can't shadow a identifier in the same scope" := by
  cases hG : assocGet top id.name with
  | none => rw [hG] at hocc; cases hocc
  | some b => simp [Resolver.declare, hs, hG]




theorem declare_params_append (r : Resolver) (a b : List LoxIdent) :
    r.declare_params (a ++ b) = (r.declare_params a).declare_params b := by
  simp [Resolver.declare_params, List.foldl_append]

theorem declare_scopes_cons (r : Resolver) (id : LoxIdent)
    (top : List (String × BindingState)) (rest : List (List (String × BindingState)))
    (hs : r.scopes = top :: rest) :
    ∃ t' r', (r.declare id).scopes = t' :: r' := by
  cases hG : assocGet top id.name with
  | none =>
    exact ⟨assocSet top id.name .Declared, rest, by simp [Resolver.declare, hs, hG]⟩
  | some b => exact ⟨top, rest, by simp [Resolver.declare, Resolver.error, hs, hG]⟩

theorem define_scopes_cons (r : Resolver) (id : LoxIdent)
    (top : List (String × BindingState)) (rest : List (List (String × BindingState)))
    (hs : r.scopes = top :: rest) :
    ∃ t' r', (r.define id).scopes = t' :: r' := by
  cases hG : assocGet top id.name with
  | none => exact ⟨top, rest, by simp [Resolver.define, Resolver.error, hs, hG]⟩
  | some b =>
    exact ⟨assocSet top id.name .Initialized, rest, by simp [Resolver.define, hs, hG]⟩

theorem declare_params_scopes_cons (params : List LoxIdent) :
    ∀ (r : Resolver) (top : List (String × BindingState))
      (rest : List (List (String × BindingState))), r.scopes = top :: rest →
    ∃ t' r', (r.declare_params params).scopes = t' :: r' := by
  induction params with
  | nil => intro r top rest hs; exact ⟨top, rest, hs⟩
  | cons p ps ih =>
    intro r top rest hs
    obtain ⟨t1, r1, h1⟩ := declare_scopes_cons r p top rest hs
    obtain ⟨t2, r2, h2⟩ := define_scopes_cons _ p t1 r1 h1
    exact ih _ t2 r2 h2

theorem scopes_has_declare_params (params : List LoxIdent) :
    ∀ (r : Resolver) (n : String), scopes_has r n → scopes_has (r.declare_params params) n := by
  induction params with
  | nil => intro r n h; exact h
  | cons p ps ih =>
    intro r n h
    exact ih _ n (scopes_has_define _ _ _ (scopes_has_declare _ _ _ h))

theorem declare_params_dup (r : Resolver) (pre mid post : List LoxIdent) (p₁ p₂ : LoxIdent)
    (hname : p₂.name = p₁.name) (top : List (String × BindingState))
    (rest : List (List (String × BindingState))) (hs : r.scopes = top :: rest) :
    (⟨"Can't shadow a identifier in the same scope", p₂.span⟩ : ResolveError)
      ∈ (r.declare_params (pre ++ (p₁ :: (mid ++ (p₂ :: post))))).errors := by
  rw [declare_params_append r pre (p₁ :: (mid ++ (p₂ :: post)))]
  obtain ⟨t0, r0, hs0⟩ := declare_params_scopes_cons pre r top rest hs
  have hstep : (r.declare_params pre).declare_params (p₁ :: (mid ++ (p₂ :: post)))
      = (((r.declare_params pre).declare p₁).define p₁).declare_params (mid ++ (p₂ :: post)) :=
    rfl
  rw [hstep, declare_params_append]
  have h2 : scopes_has ((((r.declare_params pre).declare p₁).define p₁).declare_params mid)
      p₁.name :=
    scopes_has_declare_params mid _ _ (scopes_has_declare_define_self _ _ t0 r0 hs0)
  obtain ⟨t2, r2, hs2, hg2⟩ := h2
  have hstep2 : ((((r.declare_params pre).declare p₁).define p₁).declare_params mid).declare_params
        (p₂ :: post)
      = (((((r.declare_params pre).declare p₁).define p₁).declare_params mid).declare p₂
          |>.define p₂).declare_params post :=
    rfl
  rw [hstep2]
  refine mem_errors_declare_params _ _ _ (mem_errors_define _ _ _ ?_)
  rw [declare_occupied _ _ t2 r2 hs2 (by rw [hname]; exact hg2)]
  exact List.mem_cons_self _ _




/-- Claim C7: declaring a name (`var`, `fun`, `class`, or a parameter)
whose innermost enclosing scope is a local scope already holding that name
reports the same-scope-shadowing resolve error (conjuncts 2 through 6,
through `Resolver::declare` and each declaration form), while at the top
level — the global scope, which is not on the resolver's scope stack —
`declare` is a no-op and resolving `var x = 1; var x = 2;` produces no
error at all (conjuncts 1 and 7). -/
theorem same_scope_shadowing_error :
    (∀ (r : Resolver) (id : LoxIdent), r.scopes = [] → r.declare id = r) ∧
    (∀ (r : Resolver) (id : LoxIdent) (top : List (String × BindingState))
        (rest : List (List (String × BindingState))),
      r.scopes = top :: rest → (assocGet top id.name).isSome →
      (r.declare id).errors
        = ⟨"Can't shadow a identifier in the same scope", id.span⟩ :: r.errors) ∧
    (∀ (r : Resolver) (sp : Span) (name : LoxIdent) (init : Option Expr)
        (top : List (String × BindingState)) (rest : List (List (String × BindingState))),
      r.scopes = top :: rest → (assocGet top name.name).isSome →
      (⟨"Can't shadow a identifier in the same scope", name.span⟩ : ResolveError)
        ∈ (resolve_stmt r (Stmt.mk sp (.VarDecl name init))).errors) ∧
    (∀ (r : Resolver) (sp : Span) (f : FunDecl)
        (top : List (String × BindingState)) (rest : List (List (String × BindingState))),
      r.scopes = top :: rest → (assocGet top f.name.name).isSome →
      (⟨"Can't shadow a identifier in the same scope", f.name.span⟩ : ResolveError)
        ∈ (resolve_stmt r (Stmt.mk sp (.FunDecl f))).errors) ∧
    (∀ (r : Resolver) (sp : Span) (name : LoxIdent) (sup : Option LoxIdent)
        (methods : List FunDecl)
        (top : List (String × BindingState)) (rest : List (List (String × BindingState))),
      r.scopes = top :: rest → (assocGet top name.name).isSome →
      (⟨"Can't shadow a identifier in the same scope", name.span⟩ : ResolveError)
        ∈ (resolve_stmt r (Stmt.mk sp (.ClassDecl name sup methods))).errors) ∧
    (∀ (r : Resolver) (st : FunctionState) (n : LoxIdent) (body : List Stmt) (sp : Span)
        (pre mid post : List LoxIdent) (p₁ p₂ : LoxIdent), p₂.name = p₁.name →
      (⟨"Can't shadow a identifier in the same scope", p₂.span⟩ : ResolveError)
        ∈ (resolve_function r
            (FunDecl.mk n (pre ++ (p₁ :: (mid ++ (p₂ :: post)))) body sp) st).errors) ∧
    (∀ (r : Resolver) (sp₁ sp₂ spl₁ spl₂ : Span) (n₁ n₂ : LoxIdent) (v₁ v₂ : LoxValue),
      r.scopes = [] →
      resolve_stmts r
        [Stmt.mk sp₁ (.VarDecl n₁ (some (Expr.mk spl₁ (.Lit v₁)))),
         Stmt.mk sp₂ (.VarDecl n₂ (some (Expr.mk spl₂ (.Lit v₂))))] = r) := by
  have hdecl : ∀ (r : Resolver) (id : LoxIdent) (top : List (String × BindingState))
      (rest : List (List (String × BindingState))),
      r.scopes = top :: rest → (assocGet top id.name).isSome →
      (⟨"Can't shadow a identifier in the same scope", id.span⟩ : ResolveError)
        ∈ (r.declare id).errors := by
    intro r id top rest hs hocc
    rw [declare_occupied r id top rest hs hocc]
    exact List.mem_cons_self _ _
  refine ⟨?_, ?_, ?_, ?_, ?_, ?_, ?_⟩
  · intro r id h
    simp [Resolver.declare, h]
  · intro r id top rest hs hocc
    rw [declare_occupied r id top rest hs hocc]
    rfl
  · intro r sp name init top rest hs hocc
    cases init with
    | none =>
      simp only [resolve_stmt]
      exact mem_errors_define _ _ _ (hdecl r name top rest hs hocc)
    | some i =>
      simp only [resolve_stmt]
      exact mem_errors_define _ _ _ (errors_mono_expr i _ _ (hdecl r name top rest hs hocc))
  · intro r sp f top rest hs hocc
    simp only [resolve_stmt]
    exact errors_mono_function f _ _ _ (mem_errors_define _ _ _ (hdecl r f.name top rest hs hocc))
  · intro r sp name sup methods top rest hs hocc
    simp only [resolve_stmt]
    exact errors_mono_methods methods _ _ (mem_errors_init_binding _ _ _
      (mem_errors_define _ _ _ (hdecl _ name top rest hs hocc)))
  · intro r st n body sp pre mid post p₁ p₂ hname
    simp only [resolve_function]
    exact errors_mono_stmts body _ _
      (declare_params_dup _ pre mid post p₁ p₂ hname [] _ rfl)
  · intro r sp₁ sp₂ spl₁ spl₂ n₁ n₂ v₁ v₂ h
    have e1 : ∀ (sp spl : Span) (n : LoxIdent) (v : LoxValue),
        resolve_stmt r (Stmt.mk sp (.VarDecl n (some (Expr.mk spl (.Lit v))))) = r := by
      intro sp spl n v
      simp [resolve_stmt, resolve_expr, Resolver.declare, Resolver.define, h]
    simp [resolve_stmts, e1]




/-- Witness for C7: `var x;` inside a scope that already binds `x` reports
the shadowing error. -/
theorem same_scope_shadowing_error_witness :
    (⟨"Can't shadow a identifier in the same scope", Span.new 4 5⟩ : ResolveError)
      ∈ (resolve_stmt
          { locals := [], state := ⟨.None, .None⟩, scopes := [[("x", .Initialized)]],
            errors := [] }
          (Stmt.mk (Span.new 0 6) (.VarDecl ⟨"x", Span.new 4 5, 1⟩ none))).errors :=
  same_scope_shadowing_error.2.2.1
    { locals := [], state := ⟨.None, .None⟩, scopes := [[("x", .Initialized)]], errors := [] }
    (Span.new 0 6) ⟨"x", Span.new 4 5, 1⟩ none [("x", .Initialized)] [] rfl rfl

/-- Claim C1 is false on the code at a concrete input: the program
`{ var a = (a = 2); }` (`resolver_gap_prog`) passes resolution with no
errors — `Resolver::resolve_expr` applies the own-initializer `Declared`
query only to variable *reads* (`Var`), while the `Assignment` arm calls
`resolve_binding` unguarded — and the resolver records distance 0 for the
assignment target `a` (AST id 2).  Yet when the interpreter evaluates that
very reference, the frame 0 enclosing steps up from the current
environment (the block's fresh frame) does not bind `a`, because
`eval_var_stmt` evaluates the initializer before `Environment::define`
runs; so `Environment::assign_at` fails on its internal lookup — in the
Rust source an `.unwrap()` of `None`, i.e. a panic, modelled here as the
`.crash "assign_at: unresolved binding"` outcome — contradicting the
claimed invariant (and the source's own comment "This should never panic
due to the semantic verifications that the resolver performs"). -/
theorem resolver_distance_unsound :
    (Resolver.resolve Resolver.new [resolver_gap_prog]).1 = true ∧
    (Resolver.resolve Resolver.new [resolver_gap_prog]).2.errors = [] ∧
    (Resolver.resolve Resolver.new [resolver_gap_prog]).2.locals = [(2, 0)] ∧
    (Interpreter.interpret 10 [resolver_gap_prog]
      { Interpreter.new with
          locals := (Resolver.resolve Resolver.new [resolver_gap_prog]).2.locals }).1
      = .crash "assign_at: unresolved binding" := by
  refine ⟨rfl, rfl, rfl, ?_⟩
  simp [Interpreter.interpret, Resolver.resolve, resolve_stmts, resolve_stmt, resolve_expr,
    Resolver.push_scope, Resolver.pop_scope, Resolver.declare, Resolver.define,
    Resolver.resolve_binding, Resolver.scope_depth, Resolver.query, Resolver.new,
    Interpreter.resolve_local, lookup_variable,
    resolver_gap_prog, eval_stmts, eval_stmt, eval_block, eval_var_stmt, eval_expr,
    eval_assignment_expr, assocGet, assocSet, Interpreter.new, Interpreter.newEnclosed,
    Interpreter.envDefine, Interpreter.envAssign, Interpreter.assign_at, Interpreter.ancestor,
    Interpreter.getFrame, Interpreter.setFrame, RunRes.cast,
    Stmt.kind, Stmt.span, Expr.kind, Expr.span]

end RsLox
